import Mathlib

/-!
Verification of the rox bytecode interpreter (Kangaxx-0/rox) against its
natural-language specification.

The development shallowly embeds the parts of the Rust source that the
checked claims are about:

* `src/src/scanner.rs`  — the lexer (`Scanner`, `scan_token`, ...)
* `src/src/compiler.rs` — the single-pass Pratt compiler (`Parser`,
  `Compiler`, jump patching, local resolution, ...)
* `src/src/vm.rs`       — the stack VM (`Vm::run`, `call`, upvalue capture
  and closing, globals)
* `src/src/value.rs`, `src/src/objects.rs`, the derived `PartialEq`
  instances and `impl PartialEq for Gc` from `src/crates/rox_gc/src/lib.rs`
* `src/crates/rox_gc/src/gc.rs` — the mark-and-sweep collector

Modelling conventions, used throughout:

* Rust `f64` is modelled by `F64` below: an explicit NaN plus exact
  integers.  Every numeric value manipulated by the programs verified here
  is a small integer, on which IEEE double arithmetic (`+`, `-`, `*`) is
  exact, so the model is faithful on those runs; NaN is kept because the
  equality semantics of the `Eq` instruction depends on it.
* Rust `usize` arithmetic that can underflow (and would panic in a debug
  build) is modelled with explicit side conditions or crash results, noted
  at each site.
* A `Gc<T>` handle is a pointer into the process heap.  Where handle
  identity and shared mutation matter (upvalues, closures at runtime) the
  model keeps an explicit store indexed by allocation order and values
  carry store indices; where only the pointed-to contents matter the
  contents are inlined.  Each structure notes which convention it uses.
-/

/-! ## Numbers: a model of the f64 values used by the interpreter

Exact-integer fragment of IEEE doubles plus NaN.  Addition, subtraction
and multiplication of integers of magnitude below 2^53 are exact in f64,
and all numbers occurring in the programs verified here stay far below
that bound, so modelling them by `Int` is faithful.  NaN is represented
explicitly because `PartialEq` on `f64` makes `NaN != NaN`. -/
inductive F64 where
  | nan : F64
  | num : Int → F64
deriving DecidableEq, Repr

def F64.add : F64 → F64 → F64
  | .num a, .num b => .num (a + b)
  | _, _ => .nan

def F64.sub : F64 → F64 → F64
  | .num a, .num b => .num (a - b)
  | _, _ => .nan

def F64.mul : F64 → F64 → F64
  | .num a, .num b => .num (a * b)
  | _, _ => .nan

def F64.neg : F64 → F64
  | .num a => .num (-a)
  | .nan => .nan

/-- Rust `==` on `f64`: `NaN` is not equal to anything, including itself. -/
def F64.beq : F64 → F64 → Bool
  | .num a, .num b => a == b
  | _, _ => false

/-- Rust `>` on `f64`: comparisons involving `NaN` are false. -/
def F64.bgt : F64 → F64 → Bool
  | .num a, .num b => decide (b < a)
  | _, _ => false

/-- Rust `<` on `f64`. -/
def F64.blt : F64 → F64 → Bool
  | .num a, .num b => decide (a < b)
  | _, _ => false

/-- Display of an f64 restricted to the exact-integer fragment: Rust
prints `9` for `9.0_f64`, matching integer formatting. -/
def F64.fmt : F64 → String
  | .num a => toString a
  | .nan => "NaN"

/-! ## utils.rs -/

/-- FNV-1a 64-bit hash from `src/src/utils.rs::hash`, on the bytes of the
string; `wrapping_mul` is modelled by reduction mod 2^64.  The fold is
over the characters with their code points, which coincides with the
UTF-8 byte fold of the source for the ASCII strings this interpreter
hashes (identifiers, keywords, string literals of the verified
programs). -/
def fnv1a (key : String) : Nat :=
  key.toList.foldl
    (fun h c => ((h ^^^ c.toNat) * 0x100000001b3) % (2 ^ 64))
    0xcbf29ce484222325

/-! ## op_code.rs -/

/-- The instruction set from `src/src/op_code.rs::OpCode`.  The `u16`
operands of `Loop`, `Jump` and `JumpIfFalse` are modelled as `Nat`; the
`as u16` truncations of the compiler are applied explicitly (mod 65536)
at the sites where the source performs them. -/
inductive OpCode where
  | Add
  | Call (argc : Nat)
  | Closure (ix : Nat)
  | CloseUpvalue
  | Constant (ix : Nat)
  | Divide
  | Equal
  | False
  | DefineGlobal (ix : Nat)
  | DefineLocal
  | SetGlobal (ix : Nat)
  | GetGlobal (ix : Nat)
  | SetLocal (i : Nat)
  | GetLocal (i : Nat)
  | SetUpvalue (i : Nat)
  | GetUpvalue (i : Nat)
  | Greater
  | Less
  | Loop (o : Nat)
  | Jump (o : Nat)
  | JumpIfFalse (o : Nat)
  | Nil
  | Not
  | Multiply
  | Negative
  | Placeholder
  | Pop
  | Print
  | Return
  | Subtract
  | True
deriving DecidableEq, Repr

/-! ## The token module

The crate refers to `crate::token::{Token, TokenType}`; that module's file
is not present under `src/`.  The two declarations are reconstructed from
their uses in `scanner.rs` and `compiler.rs` and from spec section 3
(Token is a record of kind, byte offset, length and 1-based line). -/
inductive TokenType where
  | LeftParen | RightParen | LeftBrace | RightBrace
  | Comma | Dot | Minus | Plus | Semicolon | Star | Slash
  | Bang | BangEqual | Equal | EqualEqual
  | Less | LessEqual | Greater | GreaterEqual
  | Strings | Number | Identifier
  | And | Class | Else | False | For | Fun | If | Nil | Or
  | Print | Return | Super | This | True | Var | While
  | Error | Eof
deriving DecidableEq, Repr

structure Token where
  tType : TokenType
  start : Nat
  length : Nat
  line : Nat
deriving DecidableEq, Repr

/-! ## scanner.rs

The scanner consumes a byte slice; all verified sources are ASCII, so the
bytes are modelled as a list of characters.  The internal `while` loops
are given explicit fuel; one source length of fuel makes every loop run
exactly as in Rust on the inputs that terminate.  (On a lone `/` the Rust
`skip_whitespace` loops forever; with exhausted fuel the model instead
stops in place.  No verified source contains `/`.) -/

structure ScannerS where
  bytes : List Char
  start : Nat
  current : Nat
  line : Nat
deriving Repr

def isDigit (c : Char) : Bool := 48 ≤ c.toNat && c.toNat ≤ 57

def isAlphabet (c : Char) : Bool :=
  (65 ≤ c.toNat && c.toNat ≤ 90) || (97 ≤ c.toNat && c.toNat ≤ 122) || c == '_'

def ScannerS.isEnd (s : ScannerS) : Bool := s.bytes.length == s.current

/-- Rust `peek`: NUL at end of input. -/
def ScannerS.peekc (s : ScannerS) : Char :=
  if s.isEnd then Char.ofNat 0 else s.bytes.getD s.current (Char.ofNat 0)

def ScannerS.peekNext (s : ScannerS) : Char :=
  if s.isEnd || s.current + 1 ≥ s.bytes.length then Char.ofNat 0
  else s.bytes.getD (s.current + 1) (Char.ofNat 0)

/-- Rust `next`: consume and return the current byte. -/
def ScannerS.adv (s : ScannerS) : ScannerS := { s with current := s.current + 1 }

def ScannerS.makeToken (s : ScannerS) (t : TokenType) : Token :=
  { tType := t, start := s.start, length := s.current - s.start, line := s.line }

/-- Rust `match_type`. -/
def ScannerS.matchType (s : ScannerS) (expected : Char) : Bool × ScannerS :=
  if s.isEnd || s.peekc != expected then (false, s) else (true, s.adv)

/-- Inner loop of the `//`-comment arm of `skip_whitespace`. -/
def skipCommentLoop : Nat → ScannerS → ScannerS
  | 0, s => s
  | fuel + 1, s =>
      if s.peekc != '\n' || s.isEnd then skipCommentLoop fuel s.adv else s

def skipWhitespace : Nat → ScannerS → ScannerS
  | 0, s => s
  | fuel + 1, s =>
      if s.isEnd then s
      else if s.peekc == ' ' || s.peekc == '\r' || s.peekc == '\t' then
        skipWhitespace fuel s.adv
      else if s.peekc == '\n' then
        skipWhitespace fuel { s.adv with line := s.line + 1 }
      else if s.peekc == '/' then
        if s.peekNext == '/' then skipWhitespace fuel (skipCommentLoop fuel s)
        else skipWhitespace fuel s
      else s

def scanNumberTail : Nat → ScannerS → ScannerS
  | 0, s => s
  | fuel + 1, s => if isDigit s.peekc then scanNumberTail fuel s.adv else s

/-- Rust `Scanner::number`. -/
def scanNumber (s : ScannerS) : Token × ScannerS :=
  let s := scanNumberTail (s.bytes.length + 1) s
  let s :=
    if s.peekc == '.' && isDigit s.peekNext then
      scanNumberTail (s.bytes.length + 1) s.adv
    else s
  (s.makeToken .Number, s)

def keywordType : String → Option TokenType
  | "and" => some .And
  | "class" => some .Class
  | "else" => some .Else
  | "false" => some .False
  | "for" => some .For
  | "fun" => some .Fun
  | "if" => some .If
  | "nil" => some .Nil
  | "or" => some .Or
  | "print" => some .Print
  | "return" => some .Return
  | "super" => some .Super
  | "this" => some .This
  | "true" => some .True
  | "var" => some .Var
  | "while" => some .While
  | _ => none

/-- Rust `convert_slice_to_string` from `utils.rs`. -/
def convertSliceToString (source : List Char) (start stop : Nat) : String :=
  String.mk ((source.drop start).take (stop - start))

def scanIdentTail : Nat → ScannerS → ScannerS
  | 0, s => s
  | fuel + 1, s =>
      if isAlphabet s.peekc || isDigit s.peekc then scanIdentTail fuel s.adv else s

/-- Rust `Scanner::identifier`.  Note the source bug preserved here: a
name that is not a keyword yields a `TokenType::Error` token, never
`TokenType::Identifier`. -/
def scanIdentifier (s : ScannerS) : Token × ScannerS :=
  let s := scanIdentTail (s.bytes.length + 1) s
  let key := convertSliceToString s.bytes s.start s.current
  match keywordType key with
  | some t => (s.makeToken t, s)
  | none => (s.makeToken .Error, s)

def scanStringLoop : Nat → ScannerS → ScannerS
  | 0, s => s
  | fuel + 1, s =>
      if s.peekc != '"' && s.isEnd then
        if s.peekc == '\n' then scanStringLoop fuel { s.adv with line := s.line + 1 }
        else scanStringLoop fuel s.adv
      else s

/-- Rust `Scanner::string` (its loop condition uses `&& self.is_end()`
exactly as in the source, so for input that is not at the end the loop
body never runs and only one byte after the opening quote is consumed). -/
def scanStringTok (s : ScannerS) : Token × ScannerS :=
  let s := scanStringLoop (s.bytes.length + 1) s
  if s.isEnd then
    ({ tType := .Error, start := s.start, length := "Unterminated string".length,
       line := s.line }, s)
  else
    let s := s.adv
    (s.makeToken .Strings, s)

/-- Rust `Scanner::scan_token`. -/
def scanToken (s0 : ScannerS) : Token × ScannerS :=
  let s1 := skipWhitespace (s0.bytes.length + 1) s0
  let s := { s1 with start := s1.current }
  if s.isEnd then (s.makeToken .Eof, s) else
  let c := s.peekc
  let s := s.adv
  if c == '(' then (s.makeToken .LeftParen, s)
  else if c == ')' then (s.makeToken .RightParen, s)
  else if c == '{' then (s.makeToken .LeftBrace, s)
  else if c == '}' then (s.makeToken .RightBrace, s)
  else if c == ',' then (s.makeToken .Comma, s)
  else if c == '.' then (s.makeToken .Dot, s)
  else if c == '-' then (s.makeToken .Minus, s)
  else if c == '+' then (s.makeToken .Plus, s)
  else if c == ';' then (s.makeToken .Semicolon, s)
  else if c == '*' then (s.makeToken .Star, s)
  else if c == '/' then (s.makeToken .Slash, s)
  else if c == '!' then
    match s.matchType '=' with
    | (true, s) => (s.makeToken .BangEqual, s)
    | (false, s) => (s.makeToken .Bang, s)
  else if c == '=' then
    match s.matchType '=' with
    | (true, s) => (s.makeToken .EqualEqual, s)
    | (false, s) => (s.makeToken .Equal, s)
  else if c == '<' then
    match s.matchType '=' with
    | (true, s) => (s.makeToken .LessEqual, s)
    | (false, s) => (s.makeToken .Less, s)
  else if c == '>' then
    match s.matchType '=' with
    | (true, s) => (s.makeToken .GreaterEqual, s)
    | (false, s) => (s.makeToken .Greater, s)
  else if c == '"' then scanStringTok s
  else if isDigit c then scanNumber s
  else if isAlphabet c then scanIdentifier s
  else (s.makeToken .Error, s)

/-! ## value.rs and objects.rs: runtime values, operationally

The VM model uses `ValueV`.  String handles are inlined (every use of a
`Gc<String>` in the interpreter goes through the contents), while
function, native and closure handles are kept as indices into explicit
heaps carried by the VM state, in allocation order — this mirrors
`Gc::new` appending a box to the process heap.  The full
contents-comparing equality of `value.rs` (claim about the `Eq`
instruction) is treated separately by the `EValue` model further below. -/

inductive ValueV where
  | deflt                       -- the `Deault` variant of `value.rs`
  | vbool (b : Bool)
  | nil
  | number (n : F64)
  | string (s : String)
  | function (id : Nat)
  | native (id : Nat)
  | closure (id : Nat)
deriving DecidableEq, Repr

/-- Rust `is_falsey` from `utils.rs`. -/
def isFalsey : ValueV → Bool
  | .nil => true
  | .vbool b => !b
  | _ => false

/-- The chunk from `chunk.rs`: instructions, constants, line array. -/
structure ChunkS where
  code : List OpCode
  constants : List ValueV
  lines : List Nat
deriving DecidableEq, Repr

def ChunkS.empty : ChunkS := ⟨[], [], []⟩

/-- Rust `Chunk::write_to_chunk`. -/
def ChunkS.writeToChunk (c : ChunkS) (value : OpCode) (line : Nat) : ChunkS :=
  { c with code := c.code ++ [value], lines := c.lines ++ [line] }

/-- Rust `Chunk::push_constant`; returns the chunk and the new index. -/
def ChunkS.pushConstant (c : ChunkS) (constant : ValueV) : ChunkS × Nat :=
  ({ c with constants := c.constants ++ [constant] }, c.constants.length)

/-- Interned-string key `HashKeyString` from `objects.rs`. -/
structure HashKeyS where
  value : String
  hash : Nat
deriving DecidableEq, Repr

def mkKey (s : String) : HashKeyS := ⟨s, fnv1a s⟩

/-- Compile-time upvalue descriptor, `objects.rs::UpValue`. -/
structure UpSpec where
  index : Nat
  isLocal : Bool
deriving DecidableEq, Repr

/-- Function prototype, `objects.rs::ObjFunction`. -/
structure ObjFunctionV where
  arity : Nat
  chunk : ChunkS
  name : HashKeyS
  upvalues : List UpSpec
deriving DecidableEq, Repr

/-- Rust `ObjFunction::new`. -/
def ObjFunctionV.newFn (name : String) : ObjFunctionV :=
  { arity := 0, chunk := ChunkS.empty, name := mkKey name, upvalues := [] }

/-! ## compiler.rs: state -/

def MAX_LOCALS : Nat := 256
def MAX_UPVALUES : Nat := 256

/-- A compiler local, `compiler.rs::Local`.  `depth` is `i32` in the
source (sentinel value -1), hence `Int`. -/
structure LocalV where
  name : Token
  depth : Int
  isCaptured : Bool
deriving DecidableEq, Repr

/-- The filler entry used by `Compiler::new` to pre-populate the 256-slot
local array. -/
def LocalV.filler : LocalV :=
  { name := { tType := .Eof, start := 0, length := 0, line := 0 },
    depth := 0, isCaptured := false }

instance : Inhabited LocalV := ⟨LocalV.filler⟩

inductive FunctionType where
  | Function
  | Script
deriving DecidableEq, Repr

/-- One compiler context, `compiler.rs::Compiler`.  The `enclosing` chain
is populated only by `Parser::function` (a `fun` declaration), which is
outside the fragment modelled here, so it is always empty and is omitted
from the state; `resolve_upvalue` below behaves as the source does with
`enclosing == None`. -/
structure CompilerS where
  locals : List LocalV
  localCount : Nat
  scopeDepth : Int
  function : ObjFunctionV
  functionType : FunctionType
deriving DecidableEq, Repr

/-- Rust `Compiler::new`. -/
def CompilerS.newC (name : String) (types : FunctionType) : CompilerS :=
  { locals := List.replicate MAX_LOCALS LocalV.filler
    localCount := 0
    scopeDepth := 0
    function := ObjFunctionV.newFn name
    functionType := types }

/-- The source text of a token, as read by `resolve_local` and
`declare_variable` (`&bytes[start..start + length]`). -/
def tokenSlice (bytes : List Char) (t : Token) : String :=
  convertSliceToString bytes t.start (t.start + t.length)

/-- Descending scan of `Compiler::resolve_local`: index `i+1` examines
local `i` and recurses downward.  Note that, as in the source, a local
whose `depth` is still -1 (declared but uninitialized) is matched and
returned like any other — there is no uninitialized-read check. -/
def resolveLocalAux (bytes : List Char) (locals : List LocalV) (name : Token) :
    Nat → Option Nat
  | 0 => none
  | i + 1 =>
      let loc := locals.getD i default
      if tokenSlice bytes loc.name == tokenSlice bytes name then some i
      else resolveLocalAux bytes locals name i

/-- Rust `Compiler::resolve_local`. -/
def resolveLocal (bytes : List Char) (c : CompilerS) (name : Token) : Option Nat :=
  resolveLocalAux bytes c.locals name c.localCount

/-- Rust `Compiler::resolve_upvalue` in a state whose enclosing chain is
empty (the only states this model constructs): the `if let Some(enclosing)`
fails and the result is `None`. -/
def resolveUpvalue (_bytes : List Char) (_c : CompilerS) (_name : Token) : Option Nat :=
  none

/-- Rust `Compiler::add_upvalue` (deduplicate, cap at 256, append).
Returns the index and the updated compiler.  On overflow the source
panics; modelled by `none`. -/
def addUpvalue (c : CompilerS) (index : Nat) (isLocal : Bool) : Option (Nat × CompilerS) :=
  match c.function.upvalues.find? (fun v => v.index == index && v.isLocal == isLocal) with
  | some v => some (v.index, c)
  | none =>
      if c.function.upvalues.length == MAX_UPVALUES then none
      else
        some (c.function.upvalues.length,
          { c with function :=
            { c.function with upvalues := c.function.upvalues ++ [⟨index, isLocal⟩] } })

/-! ## compiler.rs: parser state and emission helpers

`errors` records the messages handed to `error_at` when they are not
suppressed by panic mode (the source prints them to stderr); `crashed`
records a Rust panic (failed `expect`, `usize` underflow, index out of
bounds), after which a real run would have aborted; `unsupported` is set
on the statement forms (`if`, `while`, `for`, `fun` declarations) that
lie outside the fragment modelled here — no verified program contains
them. -/

structure ParserSt where
  scanner : ScannerS
  compiler : CompilerS
  current : Token
  previous : Token
  hadError : Bool
  panicMode : Bool
  errors : List String
  crashed : Bool
  unsupported : Bool
deriving Repr

/-- Rust `Parser::new`. -/
def ParserSt.newP (source : String) : ParserSt :=
  { scanner := { bytes := source.toList, start := 0, current := 0, line := 1 }
    compiler := CompilerS.newC "script" .Script
    current := { tType := .Nil, start := 0, length := 0, line := 0 }
    previous := { tType := .Nil, start := 0, length := 0, line := 0 }
    hadError := false
    panicMode := false
    errors := []
    crashed := false
    unsupported := false }

/-- Rust `Parser::error_at` (the formatting to stderr is reduced to
recording the message). -/
def errorAt (p : ParserSt) (_token : Token) (msg : String) : ParserSt :=
  if p.panicMode then p
  else { p with panicMode := true, errors := p.errors ++ [msg], hadError := true }

def errorAtCurrent (p : ParserSt) (msg : String) : ParserSt :=
  errorAt p p.current msg

/-- Rust `Parser::error` (reports at the previous token). -/
def errorP (p : ParserSt) (msg : String) : ParserSt :=
  errorAt p p.previous msg

/-- Loop body of `Parser::next_valid_token`: scan, surface `Error` tokens
through `error_at_current`, repeat. -/
def nextValidTokenLoop : Nat → ParserSt → ParserSt
  | 0, p => p
  | fuel + 1, p =>
      let (tok, sc) := scanToken p.scanner
      let p := { p with scanner := sc, current := tok }
      if tok.tType == .Error then
        let msg := convertSliceToString p.scanner.bytes tok.start (tok.start + tok.length)
        nextValidTokenLoop fuel (errorAtCurrent p msg)
      else p

def nextValidToken (p : ParserSt) : ParserSt :=
  nextValidTokenLoop (p.scanner.bytes.length + 2) { p with previous := p.current }

def ParserSt.codeLen (p : ParserSt) : Nat :=
  p.compiler.function.chunk.code.length

/-- Rust `Parser::emit_byte` (appends the opcode with the previous
token's line). -/
def emitByte (p : ParserSt) (code : OpCode) : ParserSt :=
  { p with compiler := { p.compiler with function := { p.compiler.function with
      chunk := p.compiler.function.chunk.writeToChunk code p.previous.line } } }

def emitTwoBytes (p : ParserSt) (c1 c2 : OpCode) : ParserSt :=
  emitByte (emitByte p c1) c2

/-- Rust `Parser::emit_jump`: emit and return the operand position. -/
def emitJump (p : ParserSt) (code : OpCode) : ParserSt × Nat :=
  let p := emitByte p code
  (p, p.codeLen - 1)

def setCodeAt (p : ParserSt) (offset : Nat) (code : OpCode) : ParserSt :=
  { p with compiler := { p.compiler with function := { p.compiler.function with
      chunk := { p.compiler.function.chunk with
        code := p.compiler.function.chunk.code.set offset code } } } }

/-- Rust `Parser::patch_jump`.  `code.len() - offset - 1` underflows (a
panic) when the operand position is not below the code length; the error
threshold is `u16::MAX` and the stored operand is truncated `as u16`. -/
def patchJump (p : ParserSt) (offset : Nat) : ParserSt :=
  if p.codeLen < offset + 1 then { p with crashed := true }
  else
    let jumpOffset := p.codeLen - offset - 1
    let p := if jumpOffset > 65535 then errorP p "Too much code to jump over." else p
    setCodeAt p offset (.Jump (jumpOffset % 65536))

/-- Rust `Parser::patch_if_false_jump` (identical except for the opcode
written). -/
def patchIfFalseJump (p : ParserSt) (offset : Nat) : ParserSt :=
  if p.codeLen < offset + 1 then { p with crashed := true }
  else
    let jumpOffset := p.codeLen - offset - 1
    let p := if jumpOffset > 65535 then errorP p "Too much code to jump over." else p
    setCodeAt p offset (.JumpIfFalse (jumpOffset % 65536))

/-- Rust `Parser::emit_loop`.  `u16::try_from(code.len()).expect(..)`
panics on chunks longer than 65535; the `u16` subtraction underflows (a
panic in a debug build) when `loop_start + 1` exceeds the length; the
offset bound checked is `0xff`, with error message "Loop body too
large.", and the instruction is emitted regardless. -/
def emitLoop (p : ParserSt) (loopStart : Nat) : ParserSt :=
  if p.codeLen > 65535 then { p with crashed := true }
  else if p.codeLen < loopStart + 1 then { p with crashed := true }
  else
    let offset := p.codeLen - loopStart - 1
    let p := if offset > 0xff then errorP p "Loop body too large." else p
    emitByte p (.Loop offset)

/-- Rust `Parser::emit_return`. -/
def emitReturn (p : ParserSt) : ParserSt :=
  emitByte (emitByte p .Nil) .Return

def ParserSt.check (p : ParserSt) (t : TokenType) : Bool :=
  p.current.tType == t

/-- Rust `Parser::consume`. -/
def consume (p : ParserSt) (expectedType : TokenType) (msg : String) : ParserSt :=
  if p.current.tType == expectedType then nextValidToken p
  else errorAtCurrent p msg

/-- Rust `Parser::match_token`. -/
def matchToken (p : ParserSt) (t : TokenType) : Bool × ParserSt :=
  if p.check t then (true, nextValidToken p) else (false, p)

def synchronizeLoop : Nat → ParserSt → ParserSt
  | 0, p => p
  | fuel + 1, p =>
      if p.current.tType != .Eof then
        if p.previous.tType == .Semicolon then p
        else
          match p.current.tType with
          | .Class | .Fun | .Var | .For | .If | .While | .Print | .Return => p
          | _ => synchronizeLoop fuel (nextValidToken p)
      else p

/-- Rust `Parser::synchronize`. -/
def synchronize (p : ParserSt) : ParserSt :=
  synchronizeLoop (p.scanner.bytes.length + 2) { p with panicMode := false }

/-- Rust `Parser::mark_initialized`. -/
def markInitialized (p : ParserSt) : ParserSt :=
  if p.compiler.scopeDepth == 0 then p
  else if p.compiler.localCount == 0 then { p with crashed := true }
  else
    let i := p.compiler.localCount - 1
    let loc := p.compiler.locals.getD i default
    { p with compiler := { p.compiler with
        locals := p.compiler.locals.set i { loc with depth := p.compiler.scopeDepth } } }

/-- Rust `Parser::add_local` (swap the fresh `depth = -1` local into the
slot at `local_count`). -/
def addLocal (p : ParserSt) (name : Token) : ParserSt :=
  if p.compiler.localCount == MAX_LOCALS then
    errorP p "Too many local variables in function"
  else
    { p with compiler := { p.compiler with
        locals := p.compiler.locals.set p.compiler.localCount
          { name := name, depth := -1, isCaptured := false }
        localCount := p.compiler.localCount + 1 } }

/-- Scan of `Parser::declare_variable` over the locals from the top down:
stop at the first initialized local of an outer scope, report duplicates
in the current scope. -/
def declareVariableLoop (name : String) : Nat → ParserSt → ParserSt
  | 0, p => p
  | i + 1, p =>
      let loc := p.compiler.locals.getD i default
      if loc.depth != -1 && loc.depth < p.compiler.scopeDepth then p
      else
        let localName := tokenSlice p.scanner.bytes loc.name
        let p :=
          if localName == name then
            errorP p "Variable with this name already declared in this scope."
          else p
        declareVariableLoop name i p

/-- Rust `Parser::declare_variable`. -/
def declareVariable (p : ParserSt) : ParserSt :=
  if p.compiler.scopeDepth == 0 then p
  else
    let name := tokenSlice p.scanner.bytes p.previous
    let p := declareVariableLoop name p.compiler.localCount p
    addLocal p p.previous

/-- Rust `Parser::identifier_constant`. -/
def identifierConstant (p : ParserSt) : ParserSt × Nat :=
  let identifier := tokenSlice p.scanner.bytes p.previous
  let (chunk, ix) := p.compiler.function.chunk.pushConstant (.string identifier)
  ({ p with compiler := { p.compiler with function :=
      { p.compiler.function with chunk := chunk } } }, ix)

/-- Rust `Parser::emit_constant`. -/
def emitConstant (p : ParserSt) (v : ValueV) : ParserSt :=
  let (chunk, ix) := p.compiler.function.chunk.pushConstant v
  let p := { p with compiler := { p.compiler with function :=
      { p.compiler.function with chunk := chunk } } }
  emitByte p (.Constant ix)

/-- Rust `Parser::define_variable`. -/
def defineVariable (p : ParserSt) (global : Nat) : ParserSt :=
  if p.compiler.scopeDepth > 0 then markInitialized p
  else emitByte p (.DefineGlobal global)

def beginScope (p : ParserSt) : ParserSt :=
  { p with compiler := { p.compiler with scopeDepth := p.compiler.scopeDepth + 1 } }

/-- Pop-locals loop of `Parser::end_scope`. -/
def endScopeLoop : Nat → ParserSt → ParserSt
  | 0, p => p
  | fuel + 1, p =>
      if p.compiler.localCount > 0 &&
          (p.compiler.locals.getD (p.compiler.localCount - 1) default).depth >
            p.compiler.scopeDepth then
        let p :=
          if (p.compiler.locals.getD (p.compiler.localCount - 1) default).isCaptured then
            emitByte p .CloseUpvalue
          else emitByte p .Pop
        endScopeLoop fuel
          { p with compiler := { p.compiler with localCount := p.compiler.localCount - 1 } }
      else p

/-- Rust `Parser::end_scope`. -/
def endScope (p : ParserSt) : ParserSt :=
  endScopeLoop (MAX_LOCALS + 1)
    { p with compiler := { p.compiler with scopeDepth := p.compiler.scopeDepth - 1 } }

/-- The number literal parser used by `Parser::number`
(`value.parse::<f64>()`), restricted to the exact-integer fragment of the
`F64` model: a run of digits.  Literals with a fractional part are
outside the modelled fragment (no verified program contains one) and are
mapped to `none`, which the caller treats as the `expect` panic. -/
def parseF64 (s : String) : Option F64 :=
  if s.length != 0 && s.toList.all isDigit then
    some (.num (s.toList.foldl (fun a c => a * 10 + (c.toNat - 48 : Nat)) (0 : Int)))
  else none

/-! ## compiler.rs: the Pratt table and the mutually recursive parser

Parse functions are stored in the rule table as names of the parse
actions (the Rust table stores `fn` pointers); `runPre`/`runInf` dispatch
on them.  All mutually recursive parse functions take explicit fuel and
give up (returning the state unchanged) when it runs out; the concrete
programs verified below are run with ample fuel. -/

inductive Prec where
  | No | Assignment | Or | And | Equality | Comparison | Term | Factor
  | Unary | Call | Primary
deriving DecidableEq, Repr

def Prec.toNat : Prec → Nat
  | .No => 0 | .Assignment => 1 | .Or => 2 | .And => 3 | .Equality => 4
  | .Comparison => 5 | .Term => 6 | .Factor => 7 | .Unary => 8 | .Call => 9
  | .Primary => 10

/-- The derived `PartialOrd` order on `Precedence` (declaration order). -/
def Prec.ble (a b : Prec) : Bool := a.toNat ≤ b.toNat

/-- Rust `Precedence::next`. -/
def Prec.next : Prec → Prec
  | .No => .Assignment | .Assignment => .Or | .Or => .And | .And => .Equality
  | .Equality => .Comparison | .Comparison => .Term | .Term => .Factor
  | .Factor => .Unary | .Unary => .Call | .Call => .Primary | .Primary => .Primary

inductive PrefixFn where
  | grouping | unary | number | literal | stringLit | printAct | parseVariable
deriving DecidableEq, Repr

inductive InfixFn where
  | binary | call | andAct | orAct
deriving DecidableEq, Repr

structure ParseRuleS where
  pre : Option PrefixFn
  inf : Option InfixFn
  precedence : Prec

/-- Rust `Parser::get_rule`. -/
def getRule : TokenType → ParseRuleS
  | .LeftParen => ⟨some .grouping, some .call, .Call⟩
  | .Minus => ⟨some .unary, some .binary, .Term⟩
  | .Bang => ⟨some .unary, none, .Term⟩
  | .BangEqual | .EqualEqual => ⟨none, some .binary, .Equality⟩
  | .Plus => ⟨none, some .binary, .Term⟩
  | .Slash | .Star => ⟨none, some .binary, .Factor⟩
  | .Number => ⟨some .number, none, .No⟩
  | .Nil | .True | .False => ⟨some .literal, none, .No⟩
  | .Greater | .GreaterEqual | .Less | .LessEqual => ⟨none, some .binary, .Comparison⟩
  | .Print => ⟨some .printAct, none, .No⟩
  | .Strings => ⟨some .stringLit, none, .No⟩
  | .Identifier => ⟨some .parseVariable, none, .No⟩
  | .And => ⟨none, some .andAct, .And⟩
  | .Or => ⟨none, some .orAct, .Or⟩
  | _ => ⟨none, none, .No⟩

/-- Rust `Parser::number`. -/
def numberAct (p : ParserSt) : ParserSt :=
  let start := p.previous.start
  let length := p.previous.length
  let value := convertSliceToString p.scanner.bytes start (start + length)
  match parseF64 value with
  | some v => emitConstant p (.number v)
  | none => { p with crashed := true }

/-- Rust `Parser::literal`. -/
def literalAct (p : ParserSt) : ParserSt :=
  match p.previous.tType with
  | .False => emitByte p .False
  | .True => emitByte p .True
  | .Nil => emitByte p .Nil
  | _ => { p with crashed := true }

/-- Rust `Parser::string` (drops the surrounding quotes). -/
def stringAct (p : ParserSt) : ParserSt :=
  let start := p.previous.start + 1
  let length := p.previous.length - 2
  let value := convertSliceToString p.scanner.bytes start (start + length)
  emitConstant p (.string value)

mutual

def parsePrecedence : Nat → Prec → ParserSt → ParserSt
  | 0, _, p => p
  | fuel + 1, precedence, p =>
      let p := nextValidToken p
      match (getRule p.previous.tType).pre with
      | none => errorP p "Expect expression."
      | some rule =>
          let canAssign := precedence.ble .Assignment
          let p := runPre fuel rule canAssign p
          let p := infixLoop fuel precedence canAssign p
          if canAssign then
            match matchToken p .Equal with
            | (true, p) => errorP p "Invalid assignment target."
            | (false, p) => p
          else p

def infixLoop : Nat → Prec → Bool → ParserSt → ParserSt
  | 0, _, _, p => p
  | fuel + 1, precedence, canAssign, p =>
      if precedence.ble (getRule p.current.tType).precedence then
        let p := nextValidToken p
        match (getRule p.previous.tType).inf with
        | some rule => infixLoop fuel precedence canAssign (runInf fuel rule canAssign p)
        | none => infixLoop fuel precedence canAssign p
      else p

def runPre : Nat → PrefixFn → Bool → ParserSt → ParserSt
  | 0, _, _, p => p
  | fuel + 1, .grouping, _, p => groupingAct fuel p
  | fuel + 1, .unary, _, p => unaryAct fuel p
  | _ + 1, .number, _, p => numberAct p
  | _ + 1, .literal, _, p => literalAct p
  | _ + 1, .stringLit, _, p => stringAct p
  | fuel + 1, .printAct, _, p => printAct fuel p
  | fuel + 1, .parseVariable, canAssign, p => compileNamedVariable fuel p.previous canAssign p

def runInf : Nat → InfixFn → Bool → ParserSt → ParserSt
  | 0, _, _, p => p
  | fuel + 1, .binary, _, p => binaryAct fuel p
  | fuel + 1, .call, _, p => callAct fuel p
  | fuel + 1, .andAct, _, p => andAct fuel p
  | fuel + 1, .orAct, _, p => orAct fuel p

/-- Rust `Parser::expression`. -/
def expression : Nat → ParserSt → ParserSt
  | 0, p => p
  | fuel + 1, p => parsePrecedence fuel .Assignment p

/-- Rust `Parser::grouping`. -/
def groupingAct : Nat → ParserSt → ParserSt
  | 0, p => p
  | fuel + 1, p =>
      let p := expression fuel p
      consume p .RightParen "Expect \x27)\x27 after expression"

/-- Rust `Parser::unary`. -/
def unaryAct : Nat → ParserSt → ParserSt
  | 0, p => p
  | fuel + 1, p =>
      let operatorType := p.previous.tType
      let p := parsePrecedence fuel .Unary p
      match operatorType with
      | .Minus => emitByte p .Negative
      | .Bang => emitByte p .Not
      | _ => p

/-- Rust `Parser::binary`. -/
def binaryAct : Nat → ParserSt → ParserSt
  | 0, p => p
  | fuel + 1, p =>
      let operatorType := p.previous.tType
      let rule := getRule operatorType
      let p := parsePrecedence fuel rule.precedence.next p
      match operatorType with
      | .Plus => emitByte p .Add
      | .Minus => emitByte p .Subtract
      | .Star => emitByte p .Multiply
      | .Slash => emitByte p .Divide
      | .EqualEqual => emitByte p .Equal
      | .BangEqual => emitTwoBytes p .Equal .Not
      | .Greater => emitByte p .Greater
      | .GreaterEqual => emitTwoBytes p .Less .Not
      | .Less => emitByte p .Less
      | .LessEqual => emitTwoBytes p .Greater .Not
      | _ => { p with crashed := true }

/-- Rust `Parser::and`. -/
def andAct : Nat → ParserSt → ParserSt
  | 0, p => p
  | fuel + 1, p =>
      let (p, endJump) := emitJump p (.JumpIfFalse 0xff)
      let p := emitByte p .Pop
      let p := parsePrecedence fuel .And p
      patchIfFalseJump p endJump

/-- Rust `Parser::or`.  As in the source: a single unconditional
`Jump` is emitted before the right-hand side — there is no
`JumpIfFalse`. -/
def orAct : Nat → ParserSt → ParserSt
  | 0, p => p
  | fuel + 1, p =>
      let (p, endJump) := emitJump p (.Jump 0xff)
      let p := emitByte p .Pop
      let p := parsePrecedence fuel .Or p
      patchJump p endJump

/-- Rust `Parser::argument_list`. -/
def argumentListLoop : Nat → Nat → ParserSt → Nat × ParserSt
  | 0, argCount, p => (argCount, p)
  | fuel + 1, argCount, p =>
      let p := expression fuel p
      let p :=
        if argCount == 255 then errorP p "Cannot have more than 255 arguments."
        else p
      let argCount := argCount + 1
      match matchToken p .Comma with
      | (true, p) => argumentListLoop fuel argCount p
      | (false, p) => (argCount, p)

def argumentList : Nat → ParserSt → Nat × ParserSt
  | 0, p => (0, p)
  | fuel + 1, p =>
      let (argCount, p) :=
        if !(p.check .RightParen) then argumentListLoop fuel 0 p else (0, p)
      (argCount, consume p .RightParen "Expect \x27)\x27 after arguments.")

/-- Rust `Parser::call`. -/
def callAct : Nat → ParserSt → ParserSt
  | 0, p => p
  | fuel + 1, p =>
      let (argCount, p) := argumentList fuel p
      emitByte p (.Call argCount)

/-- Rust `Parser::print`. -/
def printAct : Nat → ParserSt → ParserSt
  | 0, p => p
  | fuel + 1, p =>
      let p := expression fuel p
      let p := consume p .Semicolon "Expect \x27;\x27 after value"
      emitByte p .Print

/-- Rust `Parser::compile_named_variable`. -/
def compileNamedVariable : Nat → Token → Bool → ParserSt → ParserSt
  | 0, _, _, p => p
  | fuel + 1, name, canAssign, p =>
      match resolveLocal p.scanner.bytes p.compiler name with
      | some index =>
          match matchToken p .Equal with
          | (true, p) =>
              if canAssign then
                let p := expression fuel p
                emitByte p (.SetLocal index)
              else emitByte p (.GetLocal index)
          | (false, p) => emitByte p (.GetLocal index)
      | none =>
          match resolveUpvalue p.scanner.bytes p.compiler name with
          | some index =>
              match matchToken p .Equal with
              | (true, p) =>
                  if canAssign then
                    let p := expression fuel p
                    emitByte p (.SetUpvalue index)
                  else emitByte p (.GetUpvalue index)
              | (false, p) => emitByte p (.GetUpvalue index)
          | none =>
              let (p, global) := identifierConstant p
              match matchToken p .Equal with
              | (true, p) =>
                  if canAssign then
                    let p := expression fuel p
                    emitByte p (.SetGlobal global)
                  else emitByte p (.GetGlobal global)
              | (false, p) => emitByte p (.GetGlobal global)

/-- Rust `Parser::variable` (the declaration-side helper). -/
def variableDecl : Nat → String → ParserSt → ParserSt × Nat
  | 0, _, p => (p, 0)
  | _ + 1, msg, p =>
      let p := consume p .Identifier msg
      let p := declareVariable p
      if p.compiler.scopeDepth > 0 then (p, 0)
      else
        let (p, ix) := identifierConstant p
        (p, ix)

/-- Rust `Parser::var_statement`. -/
def varStatement : Nat → ParserSt → ParserSt
  | 0, p => p
  | fuel + 1, p =>
      let (p, index) := variableDecl fuel "Expect variable name." p
      let p :=
        match matchToken p .Equal with
        | (true, p) => expression fuel p
        | (false, p) => emitByte p .Nil
      let p := consume p .Semicolon "Expect \x27;\x27 after variable declaration."
      defineVariable p index

/-- Rust `Parser::return_statement`: inside the top-level script compiler
a `return` is reported as an error before anything else happens. -/
def returnStatement : Nat → ParserSt → ParserSt
  | 0, p => p
  | fuel + 1, p =>
      let p :=
        if p.compiler.functionType == .Script then
          errorAtCurrent p "Cannot return a value from an initializer."
        else p
      match matchToken p .Semicolon with
      | (true, p) => emitReturn p
      | (false, p) =>
          let p := expression fuel p
          let p := consume p .Semicolon "Expect \x27;\x27 after return value."
          emitByte p .Return

/-- Rust `Parser::block`. -/
def blockLoop : Nat → ParserSt → ParserSt
  | 0, p => p
  | fuel + 1, p =>
      if !(p.check .RightBrace) && !(p.check .Eof) then
        blockLoop fuel (declaration fuel p)
      else p

def block : Nat → ParserSt → ParserSt
  | 0, p => p
  | fuel + 1, p =>
      let p := blockLoop fuel p
      consume p .RightBrace "Expect \x27\x7d\x27 after block."

/-- Rust `Parser::statement`. -/
def statement : Nat → ParserSt → ParserSt
  | 0, p => p
  | fuel + 1, p =>
      match matchToken p .Print with
      | (true, p) => printAct fuel p
      | (false, p) =>
          match matchToken p .LeftBrace with
          | (true, p) => endScope (block fuel (beginScope p))
          | (false, p) => expressionStatement fuel p

/-- Rust `Parser::expression_statement`. -/
def expressionStatement : Nat → ParserSt → ParserSt
  | 0, p => p
  | fuel + 1, p =>
      let p := expression fuel p
      let p := consume p .Semicolon "Expect \x27;\x27 after expression."
      emitByte p .Pop

/-- Rust `Parser::declaration`.  The `if`/`while`/`for`/`fun` statement
forms are outside the modelled fragment (no verified program contains
them); reaching one sets the `unsupported` marker instead of compiling
it. -/
def declaration : Nat → ParserSt → ParserSt
  | 0, p => p
  | fuel + 1, p =>
      let p :=
        match matchToken p .Var with
        | (true, p) => varStatement fuel p
        | (false, p) =>
            match matchToken p .If with
            | (true, p) => { p with unsupported := true }
            | (false, p) =>
                match matchToken p .While with
                | (true, p) => { p with unsupported := true }
                | (false, p) =>
                    match matchToken p .For with
                    | (true, p) => { p with unsupported := true }
                    | (false, p) =>
                        match matchToken p .Fun with
                        | (true, p) => { p with unsupported := true }
                        | (false, p) =>
                            match matchToken p .Return with
                            | (true, p) => returnStatement fuel p
                            | (false, p) => statement fuel p
      if p.panicMode then synchronize p else p

def compileTopLoop : Nat → ParserSt → ParserSt
  | 0, p => p
  | fuel + 1, p =>
      if p.current.tType != .Eof then compileTopLoop fuel (declaration fuel p)
      else p

end

/-- Rust `Parser::end_compiler` (the disassembly dump to stdout is a
debug aid and is not modelled). -/
def endCompiler (p : ParserSt) : Except String ObjFunctionV :=
  let p := emitReturn p
  if !p.hadError then .ok p.compiler.function else .error "Compile error"

/-- Rust `Parser::compile`, with the final parser state alongside the
result for inspection. -/
def compileP (fuel : Nat) (p : ParserSt) : Except String ObjFunctionV × ParserSt :=
  let p := nextValidToken p
  let p := compileTopLoop fuel p
  let p := consume p .Eof "Expect end of expression."
  (endCompiler p, emitReturn p)

def compileSrc (fuel : Nat) (source : String) : Except String ObjFunctionV :=
  (compileP fuel (ParserSt.newP source)).1

/-! ## vm.rs: state

The value stack is a list with the bottom first (the top of the stack is
the last element), so `GetLocal`-style absolute indexing matches list
indexing directly.  `upvHeap`, `cloHeap`, `funHeap` and `natHeap` model
the process GC heap for the respective object kinds, in allocation
order; a `Gc<T>` handle is an index.  `output` collects the lines the
run loop writes with `println!`, `errOutput` those written by
`runtime_error` to stderr.  The globals table (`hashtable.rs`, a support
module the spec places out of the core, section 1/6) is modelled through
its contract: lookup and replace-or-insert keyed by `HashKeyString`. -/

structure ObjUpValueV where
  location : Nat
  closed : Option ValueV
deriving DecidableEq, Repr

/-- Rust `ObjUpValue::default()` is `ObjUpValue::new(0)`. -/
instance : Inhabited ObjUpValueV := ⟨⟨0, none⟩⟩

structure ObjClosureV where
  function : ObjFunctionV
  objUpvalues : List Nat
deriving DecidableEq, Repr

structure ObjNativeV where
  name : HashKeyS
  func : List ValueV → ValueV

structure CallFrameV where
  closure : ObjClosureV
  ip : Nat
  slots : Nat
deriving DecidableEq, Repr

def FRAME_MAX : Nat := 64

structure VmS where
  stack : List ValueV
  table : List (HashKeyS × ValueV)
  frames : List CallFrameV
  openValues : List Nat
  funHeap : List ObjFunctionV
  cloHeap : List ObjClosureV
  upvHeap : List ObjUpValueV
  natHeap : List ObjNativeV
  output : List String
  errOutput : List String

/-- Globals-table lookup by key (hash and content, the derived equality
of `HashKeyString`). -/
def tableGet (t : List (HashKeyS × ValueV)) (k : HashKeyS) : Option ValueV :=
  (t.find? (fun e => e.1 == k)).map (fun e => e.2)

/-- Globals-table insert: replaces the value under an existing key,
otherwise adds the binding. -/
def tableInsert : List (HashKeyS × ValueV) → HashKeyS → ValueV → List (HashKeyS × ValueV)
  | [], k, v => [(k, v)]
  | e :: rest, k, v => if e.1 == k then (k, v) :: rest else e :: tableInsert rest k v

def vmPush (vm : VmS) (v : ValueV) : VmS := { vm with stack := vm.stack ++ [v] }

/-- Rust `Stack::pop` behind an `expect`: `none` is the panic. -/
def vmPop (vm : VmS) : Option (ValueV × VmS) :=
  match vm.stack.getLast? with
  | none => none
  | some v => some (v, { vm with stack := vm.stack.dropLast })

/-- Rust `Stack::pop` where the caller ignores an empty stack. -/
def vmPopO (vm : VmS) : Option ValueV × VmS :=
  (vm.stack.getLast?, { vm with stack := vm.stack.dropLast })

/-- Rust `Stack::peek`. -/
def vmPeek (vm : VmS) (distance : Nat) : Option ValueV :=
  if distance ≥ vm.stack.length then none
  else vm.stack.get? (vm.stack.length - 1 - distance)

/-- The one built-in native.  `clock_native` returns the wall-clock time,
which has no meaning in a pure model; no verified program calls it, and
the value is fixed arbitrarily. -/
def clockNativeV : ObjNativeV := ⟨mkKey "clock", fun _ => .number (.num 0)⟩

/-- Rust `Vm::new` followed by `define_native(clock)`. -/
def vmNew : VmS :=
  { stack := [], table := [(mkKey "clock", .native 0)], frames := [],
    openValues := [], funHeap := [], cloHeap := [], upvHeap := [],
    natHeap := [clockNativeV], output := [], errOutput := [] }

/-! ## vm.rs: upvalue capture and closing -/

/-- Rust `Vm::capture_upvalue`.  The scan reuses the first open upvalue
whose `location` matches — but through `std::mem::take`, which swaps a
freshly allocated `Gc::default()` (an open upvalue at location 0) into
the open list and returns the original handle, so the reused upvalue
leaves the list.  Returns the handle and the new state. -/
def captureUpvalue (vm : VmS) (index : Nat) : Nat × VmS :=
  match vm.openValues.findIdx? (fun id => (vm.upvHeap.getD id default).location == index) with
  | some i =>
      let origId := vm.openValues.getD i 0
      let newId := vm.upvHeap.length
      (origId, { vm with
        upvHeap := vm.upvHeap ++ [default]
        openValues := vm.openValues.set i newId })
  | none =>
      let newId := vm.upvHeap.length
      (newId, { vm with
        upvHeap := vm.upvHeap ++ [{ location := index, closed := none }]
        openValues := vm.openValues ++ [newId] })

/-- Loop of `Vm::close_upvalues`: every open upvalue with
`location >= index` is removed from the open list and its `closed` cell
is set to the stack value at its location (`none` models the panic on an
out-of-range stack read). -/
def closeUpvaluesLoop (stack : List ValueV) (index : Nat) :
    List Nat → List ObjUpValueV → Option (List Nat × List ObjUpValueV)
  | [], heap => some ([], heap)
  | id :: rest, heap =>
      let u := heap.getD id default
      if index ≤ u.location then
        match stack.get? u.location with
        | none => none
        | some v => closeUpvaluesLoop stack index rest (heap.set id { u with closed := some v })
      else
        (closeUpvaluesLoop stack index rest heap).map (fun r => (id :: r.1, r.2))

/-- Rust `Vm::close_upvalues`. -/
def closeUpvalues (vm : VmS) (index : Nat) : Option VmS :=
  (closeUpvaluesLoop vm.stack index vm.openValues vm.upvHeap).map
    (fun r => { vm with openValues := r.1, upvHeap := r.2 })

/-! ## vm.rs: calls, errors, binary operations -/

/-- Rust `Vm::call`.  `none` is the panic on `stack.len() - argc - 1`
underflowing; `(false, _)` is a reported call error (message printed to
stdout by the source); `(true, _)` pushes the new frame, whose `slots`
is the stack index of the callee itself. -/
def vmCall (vm : VmS) (closure : ObjClosureV) (argCount : Nat) : Option (Bool × VmS) :=
  if argCount != closure.function.arity then
    some (false, { vm with output := vm.output ++
      ["Expected " ++ toString closure.function.arity ++ " arguments but got " ++
        toString argCount ++ "."] })
  else if vm.frames.length == FRAME_MAX then
    some (false, { vm with output := vm.output ++ ["Stack overflow!"] })
  else if vm.stack.length < argCount + 1 then none
  else
    let stackTop := vm.stack.length - argCount - 1
    some (true, { vm with frames := vm.frames ++
      [{ closure := closure, ip := 0, slots := stackTop }] })

/-- Rust `Vm::call_value`.  `none` models a panic (dangling handle or
`usize` underflow, neither of which a real run reaches). -/
def callValue (vm : VmS) (callee : ValueV) (argCount : Nat) : Option (Bool × VmS) :=
  match callee with
  | .closure id =>
      match vm.cloHeap.get? id with
      | none => none
      | some clo => vmCall vm clo argCount
  | .native id =>
      match vm.natHeap.get? id with
      | none => none
      | some nat =>
          if vm.stack.length < argCount + 1 then none
          else
            let idx := vm.stack.length - argCount
            let result := nat.func (vm.stack.drop idx)
            some (true, vmPush { vm with stack := vm.stack.take (idx - 1) } result)
  | _ => some (false, { vm with output := vm.output ++ ["Can only call functions and classes."] })

/-- Rust `Vm::runtime_error`: formats the message with the line of the
last executed instruction, a backtrace over all frames, and resets the
value stack.  `none` models the panics of the index arithmetic. -/
def frameLine (f : CallFrameV) : Option String :=
  if f.ip == 0 then none
  else (f.closure.function.chunk.lines.get? (f.ip - 1)).map
    (fun l => "[line " ++ toString l ++ "] in " ++ f.closure.function.name.value)

def runtimeError (vm : VmS) (message : String) : Option VmS :=
  match vm.frames.getLast? with
  | none => none
  | some f =>
      if f.ip == 0 then none
      else
        match f.closure.function.chunk.lines.get? (f.ip - 1) with
        | none => none
        | some line =>
            match (vm.frames.reverse).mapM frameLine with
            | none => none
            | some bt =>
                some { vm with
                  errOutput := vm.errOutput ++
                    ["Runtime error: " ++ message ++ " [line " ++ toString line ++ "]"] ++ bt
                  stack := [] }

/-- Exact division within the integer fragment of `F64`; `none` marks a
result (a non-integral quotient, an infinity) that leaves the modelled
fragment.  No verified program divides. -/
def F64.divExact : F64 → F64 → Option F64
  | .nan, _ => some .nan
  | _, .nan => some .nan
  | .num a, .num b => if b ≠ 0 ∧ b ∣ a then some (.num (a / b)) else none

inductive BinRes where
  | ok (vm : VmS)
  | err (vm : VmS)
  | crash
  | unmodel

/-- Rust `Vm::binary_operation`: pop the right operand `v1`, then the
left operand `v2`; on a type mismatch the arithmetic/comparison cases
push `v1` then `v2` back (note the swap) before failing, while `Add`
fails without restoring. -/
def binaryOperation (vm0 : VmS) (code : OpCode) : BinRes :=
  match vmPop vm0 with
  | none => .crash
  | some (v1, vm1) =>
      match vmPop vm1 with
      | none => .crash
      | some (v2, vm) =>
          match code with
          | .Add =>
              match v1, v2 with
              | .number x1, .number x2 => .ok (vmPush vm (.number (x2.add x1)))
              | .string s1, .string s2 => .ok (vmPush vm (.string (s2 ++ s1)))
              | _, _ => .err vm
          | .Subtract =>
              match v1, v2 with
              | .number x1, .number x2 => .ok (vmPush vm (.number (x2.sub x1)))
              | _, _ => .err (vmPush (vmPush vm v1) v2)
          | .Multiply =>
              match v1, v2 with
              | .number x1, .number x2 => .ok (vmPush vm (.number (x2.mul x1)))
              | _, _ => .err (vmPush (vmPush vm v1) v2)
          | .Divide =>
              match v1, v2 with
              | .number x1, .number x2 =>
                  match F64.divExact x2 x1 with
                  | some r => .ok (vmPush vm (.number r))
                  | none => .unmodel
              | _, _ => .err (vmPush (vmPush vm v1) v2)
          | .Greater =>
              match v1, v2 with
              | .number x1, .number x2 => .ok (vmPush vm (.vbool (x2.bgt x1)))
              | _, _ => .err (vmPush (vmPush vm v1) v2)
          | .Less =>
              match v1, v2 with
              | .number x1, .number x2 => .ok (vmPush vm (.vbool (x2.blt x1)))
              | _, _ => .err (vmPush (vmPush vm v1) v2)
          | _ => .err vm

/-- Equality on operational values, as used by the `Equal` instruction.
On nil, booleans, numbers and strings this is the derived `PartialEq` of
`value.rs` (strings through the `Gc` deref, by content; numbers with the
IEEE NaN rule).  Function, native and closure handles are store indices
here and are compared by index; the derived instance in the source
compares the pointed-to contents instead — that behaviour is the subject
of claim C5 and is modelled exactly by `evalueEq` below.  No program
verified against this operational model compares heap values. -/
def valueVBeq : ValueV → ValueV → Bool
  | .deflt, .deflt => true
  | .nil, .nil => true
  | .vbool a, .vbool b => a == b
  | .number a, .number b => a.beq b
  | .string a, .string b => a == b
  | .function a, .function b => a == b
  | .native a, .native b => a == b
  | .closure a, .closure b => a == b
  | _, _ => false

/-- Rust `Option<Value> == Option<Value>` as used by the `Equal` arm. -/
def optValueBeq : Option ValueV → Option ValueV → Bool
  | none, none => true
  | some a, some b => valueVBeq a b
  | _, _ => false

/-! ## vm.rs: the dispatch loop -/

inductive StepRes where
  | next (vm : VmS)
  | done (vm : VmS)
  | rerr (vm : VmS)
  | crash
  | unmodel

/-- Replace the top call frame. -/
def setLastFrame (vm : VmS) (f : CallFrameV) : VmS :=
  { vm with frames := vm.frames.dropLast ++ [f] }

def addIp (vm : VmS) (delta : Nat) : VmS :=
  match vm.frames.getLast? with
  | none => vm
  | some f => setLastFrame vm { f with ip := f.ip + delta }

/-- One iteration of `Vm::run`: fetch the instruction at the current
frame's `ip`, advance `ip`, dispatch.  `crash` models a Rust panic
(failed `expect`, out-of-range index, `usize` underflow), `unmodel`
marks the one path (a non-exact `f64` division) that leaves the numeric
fragment of the model. -/
def vmStep (vm0 : VmS) : StepRes :=
  match vm0.frames.getLast? with
  | none => .crash
  | some frame0 =>
      match frame0.closure.function.chunk.code.get? frame0.ip with
      | none => .crash
      | some instruction =>
          let frame := { frame0 with ip := frame0.ip + 1 }
          let vm := setLastFrame vm0 frame
          match instruction with
          | .Return =>
              match vmPop vm with
              | none => .crash
              | some (res, vm) =>
                  let vm := { vm with frames := vm.frames.dropLast }
                  match closeUpvalues vm frame.slots with
                  | none => .crash
                  | some vm =>
                      if vm.frames.isEmpty then .done vm
                      else .next (vmPush { vm with stack := vm.stack.take frame.slots } res)
          | .Constant v =>
              match frame.closure.function.chunk.constants.get? v with
              | none => .crash
              | some val => .next (vmPush vm val)
          | .Negative =>
              match vmPeek vm 0 with
              | none => .crash
              | some (.number _) =>
                  match vmPop vm with
                  | some (.number v, vm) => .next (vmPush vm (.number v.neg))
                  | _ => .crash
              | some _ =>
                  .rerr { vm with output := vm.output ++ ["operand must be a number"] }
          | .Add =>
              match binaryOperation vm .Add with
              | .ok vm => .next vm
              | .err vm =>
                  match runtimeError vm "operands must be two numbers or two strings" with
                  | some vm => .rerr vm
                  | none => .crash
              | .crash => .crash
              | .unmodel => .unmodel
          | .Subtract =>
              match binaryOperation vm .Subtract with
              | .ok vm => .next vm
              | .err vm =>
                  match runtimeError vm "operands must be two numbers" with
                  | some vm => .rerr vm
                  | none => .crash
              | .crash => .crash
              | .unmodel => .unmodel
          | .Multiply =>
              match binaryOperation vm .Multiply with
              | .ok vm => .next vm
              | .err vm =>
                  match runtimeError vm "operands must be two numbers" with
                  | some vm => .rerr vm
                  | none => .crash
              | .crash => .crash
              | .unmodel => .unmodel
          | .Divide =>
              match binaryOperation vm .Divide with
              | .ok vm => .next vm
              | .err vm =>
                  match runtimeError vm "operands must be two numbers" with
                  | some vm => .rerr vm
                  | none => .crash
              | .crash => .crash
              | .unmodel => .unmodel
          | .Nil => .next (vmPush vm .nil)
          | .True => .next (vmPush vm (.vbool true))
          | .False => .next (vmPush vm (.vbool false))
          | .Not =>
              match vmPop vm with
              | none => .crash
              | some (val, vm) => .next (vmPush vm (.vbool (isFalsey val)))
          | .Equal =>
              let (b, vm) := vmPopO vm
              let (a, vm) := vmPopO vm
              .next (vmPush vm (.vbool (optValueBeq a b)))
          | .Greater =>
              match binaryOperation vm .Greater with
              | .ok vm => .next vm
              | .err vm => .rerr vm
              | .crash => .crash
              | .unmodel => .unmodel
          | .Less =>
              match binaryOperation vm .Less with
              | .ok vm => .next vm
              | .err vm => .rerr vm
              | .crash => .crash
              | .unmodel => .unmodel
          | .Pop => .next (vmPopO vm).2
          | .CloseUpvalue =>
              if vm.stack.length == 0 then .crash
              else
                match closeUpvalues vm (vm.stack.length - 1) with
                | none => .crash
                | some vm => .next (vmPopO vm).2
          | .Print =>
              match vmPop vm with
              | none => .crash
              | some (val, vm) =>
                  match val with
                  | .function id =>
                      match vm.funHeap.get? id with
                      | none => .crash
                      | some f => .next { vm with output := vm.output ++ [f.name.value] }
                  | .string s =>
                      .next { vm with output := vm.output ++ ["Printing value of " ++ s] }
                  | .number n =>
                      .next { vm with output := vm.output ++ ["Printing value of " ++ n.fmt] }
                  | .vbool b =>
                      .next { vm with output := vm.output ++
                        ["Printing value of " ++ (if b then "true" else "false")] }
                  | .nil => .next { vm with output := vm.output ++ ["nil"] }
                  | _ => .next { vm with output := vm.output ++ ["unknown value"] }
          | .DefineGlobal v =>
              match frame.closure.function.chunk.constants.get? v with
              | none => .crash
              | some (.string s) =>
                  match vmPop vm with
                  | none => .crash
                  | some (val, vm) =>
                      .next { vm with table := tableInsert vm.table (mkKey s) val }
              | some _ => .next vm
          | .GetGlobal v =>
              match frame.closure.function.chunk.constants.get? v with
              | none => .crash
              | some (.string s) =>
                  match tableGet vm.table (mkKey s) with
                  | some val => .next (vmPush vm val)
                  | none =>
                      match runtimeError vm ("undefined variable \x27" ++ s ++ "\x27") with
                      | some vm => .rerr vm
                      | none => .crash
              | some _ => .next vm
          | .SetGlobal v =>
              match frame.closure.function.chunk.constants.get? v with
              | none => .crash
              | some (.string s) =>
                  if (tableGet vm.table (mkKey s)).isSome then
                    match vmPeek vm 0 with
                    | none => .crash
                    | some val =>
                        .next { vm with table := tableInsert vm.table (mkKey s) val }
                  else
                    match runtimeError vm ("undefined variable \x27" ++ s ++ "\x27") with
                    | some vm => .rerr vm
                    | none => .crash
              | some _ => .next vm
          | .GetLocal index =>
              match vm.stack.get? (frame.slots + index + 1) with
              | none => .crash
              | some val => .next (vmPush vm val)
          | .SetLocal index =>
              match vmPeek vm 0 with
              | none => .crash
              | some val =>
                  let addr := frame.slots + index + 1
                  if addr < vm.stack.length then
                    .next { vm with stack := vm.stack.set addr val }
                  else .crash
          | .GetUpvalue index =>
              match frame.closure.objUpvalues.get? index with
              | none => .crash
              | some id =>
                  match vm.upvHeap.get? id with
                  | none => .crash
                  | some u =>
                      match u.closed with
                      | some val => .next (vmPush vm val)
                      | none =>
                          match vm.stack.get? u.location with
                          | none => .crash
                          | some val => .next (vmPush vm val)
          | .SetUpvalue index =>
              match frame.closure.objUpvalues.get? index with
              | none => .crash
              | some id =>
                  match vm.upvHeap.get? id with
                  | none => .crash
                  | some u =>
                      match vmPeek vm 0 with
                      | none => .crash
                      | some val =>
                          match u.closed with
                          | none =>
                              if u.location < vm.stack.length then
                                .next { vm with stack := vm.stack.set u.location val }
                              else .crash
                          | some _ =>
                              .next { vm with
                                upvHeap := vm.upvHeap.set id { u with closed := some val } }
          | .JumpIfFalse offset =>
              match vmPeek vm 0 with
              | none => .crash
              | some val =>
                  if isFalsey val then .next (addIp vm offset) else .next vm
          | .Jump offset => .next (addIp vm offset)
          | .Loop offset =>
              match vm.frames.getLast? with
              | none => .crash
              | some f =>
                  if f.ip < offset + 1 then .crash
                  else .next (setLastFrame vm { f with ip := f.ip - offset - 1 })
          | .Call argCount =>
              match vmPeek vm argCount with
              | none => .crash
              | some callee =>
                  match callValue vm callee argCount with
                  | none => .crash
                  | some (true, vm) => .next vm
                  | some (false, vm) => .rerr vm
          | .Closure v =>
              match frame.closure.function.chunk.constants.get? v with
              | none => .crash
              | some (.function id) =>
                  match vm.funHeap.get? id with
                  | none => .crash
                  | some f =>
                      let captured := f.upvalues.foldl
                        (fun acc spec =>
                          match acc with
                          | none => none
                          | some (vm, ids) =>
                              if spec.isLocal then
                                let r := captureUpvalue vm (frame.slots + spec.index + 1)
                                some (r.2, ids ++ [r.1])
                              else
                                match frame.closure.objUpvalues.get? spec.index with
                                | none => none
                                | some uid => some (vm, ids ++ [uid]))
                        (some (vm, []))
                      match captured with
                      | none => .crash
                      | some (vm, ids) =>
                          let vm := { vm with cloHeap := vm.cloHeap ++ [⟨f, ids⟩] }
                          .next (vmPush vm (.closure (vm.cloHeap.length - 1)))
              | some _ => .next vm
          | _ =>
              .rerr { vm with output := vm.output ++
                ["Unknown operation code during interpreting!"] }

inductive RunRes where
  | ok (vm : VmS)
  | rerr (vm : VmS)
  | crash
  | unmodel
  | fuelOut (vm : VmS)

/-- The fetch-dispatch loop of `Vm::run`, fuelled. -/
def vmRun : Nat → VmS → RunRes
  | 0, vm => .fuelOut vm
  | fuel + 1, vm =>
      match vmStep vm with
      | .next vm => vmRun fuel vm
      | .done vm => .ok vm
      | .rerr vm => .rerr vm
      | .crash => .crash
      | .unmodel => .unmodel

/-- Rust `Vm::interpret` on a fresh VM: compile, wrap the script function
in a closure, push it, enter it with `call` (whose result the source
ignores) and run. -/
inductive InterpRes where
  | ok (vm : VmS)
  | rerr (vm : VmS)
  | compileErr
  | crash
  | unmodel
  | fuelOut (vm : VmS)

def interpret (pfuel rfuel : Nat) (source : String) : InterpRes :=
  match compileSrc pfuel source with
  | .error _ => .compileErr
  | .ok f =>
      let vm := vmNew
      let vm := { vm with cloHeap := vm.cloHeap ++ [⟨f, []⟩] }
      let cid := vm.cloHeap.length - 1
      let vm := (vmPopO vm).2
      let vm := vmPush vm (.closure cid)
      match vmCall vm ⟨f, []⟩ 0 with
      | none => .crash
      | some (_, vm) =>
          match vmRun rfuel vm with
          | .ok vm => .ok vm
          | .rerr vm => .rerr vm
          | .crash => .crash
          | .unmodel => .unmodel
          | .fuelOut vm => .fuelOut vm

/-! ## value.rs equality: the contents model for the Eq instruction

For claim C5 the relevant code is the derived `PartialEq` of `Value` and
of the object types, together with `impl PartialEq for Gc` from
`rox_gc/src/lib.rs` lines 201-208, which compares `**self == **other` —
the pointed-to contents, not the pointer.  Here every `Gc` handle is a
pair of an allocation identity (`id`, the pointer) and the pointed-to
contents, inlined; the equality functions below ignore the `id` exactly
as the `Gc` instance does.  `ObjNative` (a name plus a function pointer)
carries only its name, which is all its handwritten `PartialEq`
compares. -/

mutual

inductive EValue where
  | deflt
  | ebool (b : Bool)
  | enil
  | enumber (n : F64)
  | estring (id : Nat) (s : String)
  | efunction (id : Nat) (f : EFunction)
  | enative (id : Nat) (name : HashKeyS)
  | eclosure (id : Nat) (c : EClosure)

inductive EFunction where
  | mk (arity : Nat) (chunk : EChunk) (name : HashKeyS) (upvalues : List UpSpec)

/-- Constants are a `Vec<Value>`; the vector is inlined into the mutual
block as a cons-list so that the equality functions below are plain
structural recursion. -/
inductive EChunk where
  | mk (code : List OpCode) (constants : EValueList) (lines : List Nat)

inductive EValueList where
  | nil
  | cons (hd : EValue) (tl : EValueList)

inductive EClosure where
  | mk (function : EFunction) (objUpvalues : EUpValueList)

inductive EUpValueList where
  | nil
  | cons (hd : EUpValue) (tl : EUpValueList)

/-- `ObjUpValue`, whose `closed` field is an `Option<Value>` (inlined
into the mutual block). -/
inductive EUpValue where
  | mk (location : Nat) (closed : EValueOpt)

inductive EValueOpt where
  | noneV
  | someV (v : EValue)

end

mutual

/-- Rust `Value == Value` (derived, with `Gc` dereferencing:
`impl PartialEq for Gc` compares `**self == **other`, so every `id` is
ignored and only the contents decide). -/
def evalueEq : EValue → EValue → Bool
  | .deflt, .deflt => true
  | .ebool a, .ebool b => a == b
  | .enil, .enil => true
  | .enumber a, .enumber b => a.beq b
  | .estring _ s, .estring _ t => s == t
  | .efunction _ f, .efunction _ g => efunctionEq f g
  | .enative _ n, .enative _ m => n.value == m.value
  | .eclosure _ c, .eclosure _ d => eclosureEq c d
  | _, _ => false
termination_by structural x _ => x

/-- Rust `ObjFunction == ObjFunction` (derived). -/
def efunctionEq : EFunction → EFunction → Bool
  | .mk a c n u, .mk a2 c2 n2 u2 => a == a2 && echunkEq c c2 && n == n2 && u == u2
termination_by structural x _ => x

/-- Rust `Chunk == Chunk` (derived). -/
def echunkEq : EChunk → EChunk → Bool
  | .mk code consts lines, .mk code2 consts2 lines2 =>
      code == code2 && econstsEq consts consts2 && lines == lines2
termination_by structural x _ => x

/-- Rust `Vec<Value> == Vec<Value>`. -/
def econstsEq : EValueList → EValueList → Bool
  | .nil, .nil => true
  | .cons x xs, .cons y ys => evalueEq x y && econstsEq xs ys
  | _, _ => false
termination_by structural x _ => x

/-- Rust `ObjClosure == ObjClosure` (derived). -/
def eclosureEq : EClosure → EClosure → Bool
  | .mk f us, .mk f2 us2 => efunctionEq f f2 && eupvListEq us us2
termination_by structural x _ => x

/-- Rust `Vec<ObjUpValue> == Vec<ObjUpValue>`. -/
def eupvListEq : EUpValueList → EUpValueList → Bool
  | .nil, .nil => true
  | .cons x xs, .cons y ys => eupvEq x y && eupvListEq xs ys
  | _, _ => false
termination_by structural x _ => x

/-- Rust `ObjUpValue == ObjUpValue` (derived). -/
def eupvEq : EUpValue → EUpValue → Bool
  | .mk l c, .mk l2 c2 => l == l2 && eoptValEq c c2
termination_by structural x _ => x

/-- Rust `Option<Value> == Option<Value>` for the `closed` field. -/
def eoptValEq : EValueOpt → EValueOpt → Bool
  | .noneV, .noneV => true
  | .someV a, .someV b => evalueEq a b
  | _, _ => false
termination_by structural x _ => x

end

/-- Rust `Option<Value> == Option<Value>` as produced by the two `pop`
calls of the `Equal` arm. -/
def eoptEq : Option EValue → Option EValue → Bool
  | none, none => true
  | some a, some b => evalueEq a b
  | _, _ => false

/-- The `OpCode::Equal` arm of `Vm::run` (vm.rs lines 359-363) on a
value stack whose contents are in scope: pop `b`, pop `a` (both as
`Option`s, no panic), push `Bool(a == b)`. -/
def eqInstruction (stack : List EValue) : List EValue :=
  let b := stack.getLast?
  let stack := stack.dropLast
  let a := stack.getLast?
  let stack := stack.dropLast
  stack ++ [.ebool (eoptEq a b)]

/-! ## rox_gc/src/gc.rs: the collector

A heap is the intrusive box list: pairs of an allocation identity and a
box, where a box keeps its header root count and the list of `Gc`
handles contained in its payload (the targets `trace()` visits).  Mark
bits are not part of the state: the unmark pass inside `mark()` clears
every bit before `mark()` returns, so boxes always enter and leave
`collect_garbage` unmarked, and the marked set is local to a collection
(modelled as the result of `markLoop`).

`trace_inner` marks a box and recurses into its contained handles,
skipping boxes already marked; `markLoop` is that same depth-first
traversal with the recursion turned into an explicit worklist (children
pushed in front), which visits the identical nodes in the identical
order.  The outer loop of `mark()` seeds it with every box whose root
count is positive, in list order.

After the mark pass, `collect_garbage` collects the unmarked boxes,
invokes `finalize` on each — every `Finalize` implementation in this
crate is the empty default, so the heap is unchanged — runs `mark()` a
second time (which recomputes and again clears the same marks, so the
resurrection check in `sweep` never fires), and finally unlinks and
frees every collected box.  The pointer surgery of `sweep` amounts to
removing those boxes from the list. -/

structure GcBoxM where
  roots : Nat
  children : List Nat
deriving DecidableEq, Repr

structure GcHeapM where
  boxes : List (Nat × GcBoxM)
deriving DecidableEq, Repr

/-- The identities present in the heap. -/
def GcHeapM.idsF (g : GcHeapM) : Finset Nat := (g.boxes.map Prod.fst).toFinset

/-- The handles contained in the box `id` (the targets its `trace`
visits); a dangling identity has none. -/
def GcHeapM.childrenOf (g : GcHeapM) (id : Nat) : List Nat :=
  match g.boxes.lookup id with
  | some b => b.children
  | none => []

/-- One contained-handle edge. -/
def GcHeapM.edge (g : GcHeapM) (a b : Nat) : Prop := b ∈ g.childrenOf a

/-- Reachability along contained handles. -/
def GcHeapM.Reaches (g : GcHeapM) : Nat → Nat → Prop :=
  Relation.ReflTransGen g.edge

/-- The boxes whose root count is positive, in list order — the seeds of
the mark phase. -/
def GcHeapM.rootedIds (g : GcHeapM) : List Nat :=
  (g.boxes.filter (fun e => decide (0 < e.2.roots))).map Prod.fst

lemma lookup_eq_none_of_not_mem_fst {l : List (Nat × GcBoxM)} {id : Nat}
    (h : id ∉ l.map Prod.fst) : l.lookup id = none := by
  induction l with
  | nil => rfl
  | cons e rest ih =>
    simp only [List.map_cons, List.mem_cons] at h
    push_neg at h
    have hbe : (id == e.1) = false := beq_eq_false_iff_ne.mpr h.1
    simp [List.lookup, hbe, ih h.2]

lemma childrenOf_eq_nil_of_not_mem {g : GcHeapM} {id : Nat}
    (h : id ∉ g.idsF) : g.childrenOf id = [] := by
  have : g.boxes.lookup id = none := by
    apply lookup_eq_none_of_not_mem_fst
    simpa [GcHeapM.idsF] using h
  simp [GcHeapM.childrenOf, this]

lemma sdiff_insert_of_not_mem_ids {g : GcHeapM} {id : Nat} (m : Finset Nat)
    (h : id ∉ g.idsF) : g.idsF \ insert id m = g.idsF \ m := by
  ext x
  simp only [Finset.mem_sdiff, Finset.mem_insert]
  constructor
  · rintro ⟨hx, hnx⟩
    exact ⟨hx, fun hm => hnx (Or.inr hm)⟩
  · rintro ⟨hx, hnx⟩
    refine ⟨hx, ?_⟩
    rintro (rfl | hm)
    · exact h hx
    · exact hnx hm

/-- The depth-first mark traversal of `trace_inner`, as a worklist. -/
def markLoop (g : GcHeapM) : List Nat → Finset Nat → Finset Nat
  | [], m => m
  | id :: rest, m =>
      if id ∈ m then markLoop g rest m
      else markLoop g (g.childrenOf id ++ rest) (insert id m)
termination_by stack m => ((g.idsF \ m).card, stack.length)
decreasing_by
  · exact Prod.Lex.right _ (Nat.lt_succ_self _)
  · rename_i hm
    by_cases hid : id ∈ g.idsF
    · apply Prod.Lex.left
      apply Finset.card_lt_card
      constructor
      · intro x hx
        simp only [Finset.mem_sdiff, Finset.mem_insert] at hx ⊢
        exact ⟨hx.1, fun h => hx.2 (Or.inr h)⟩
      · intro hsub
        have : id ∈ g.idsF \ insert id m := hsub (by simp [Finset.mem_sdiff, hid, hm])
        simp at this
    · rw [sdiff_insert_of_not_mem_ids m hid]
      rw [childrenOf_eq_nil_of_not_mem hid]
      exact Prod.Lex.right _ (Nat.lt_succ_self _)

/-- The marked set of one collection: mark from every rooted box. -/
def markedSet (g : GcHeapM) : Finset Nat := markLoop g g.rootedIds ∅

/-- Rust `collect_garbage`: the surviving heap (the boxes the sweep
keeps, in order and unchanged) and the identities of the collected
boxes — each of which had `finalize` invoked before deallocation. -/
def collectGarbage (g : GcHeapM) : GcHeapM × List Nat :=
  (⟨g.boxes.filter (fun e => decide (e.1 ∈ markedSet g))⟩,
   (g.boxes.filter (fun e => decide (e.1 ∉ markedSet g))).map Prod.fst)

lemma markLoop_subset (g : GcHeapM) :
    ∀ (stack : List Nat) (m : Finset Nat), m ⊆ markLoop g stack m := by
  intro stack m
  induction stack, m using markLoop.induct g with
  | case1 m => rw [markLoop]
  | case2 id rest m hm ih => rw [markLoop, if_pos hm]; exact ih
  | case3 id rest m hm ih =>
      rw [markLoop, if_neg hm]
      exact (Finset.subset_insert _ _).trans ih

lemma mem_markLoop_of_mem_stack (g : GcHeapM) :
    ∀ (stack : List Nat) (m : Finset Nat) (x : Nat),
      x ∈ stack → x ∈ markLoop g stack m := by
  intro stack m
  induction stack, m using markLoop.induct g with
  | case1 m => intro x hx; cases hx
  | case2 id rest m hm ih =>
      intro x hx
      rw [markLoop, if_pos hm]
      rcases List.mem_cons.mp hx with rfl | hx
      · exact markLoop_subset g rest m hm
      · exact ih x hx
  | case3 id rest m hm ih =>
      intro x hx
      rw [markLoop, if_neg hm]
      rcases List.mem_cons.mp hx with rfl | hx
      · exact markLoop_subset g _ _ (Finset.mem_insert_self x m)
      · exact ih x (List.mem_append_right _ hx)

lemma markLoop_closed (g : GcHeapM) :
    ∀ (stack : List Nat) (m : Finset Nat) (x : Nat), x ∈ markLoop g stack m →
      x ∈ m ∨ ∀ c ∈ g.childrenOf x, c ∈ markLoop g stack m := by
  intro stack m
  induction stack, m using markLoop.induct g with
  | case1 m =>
      intro x hx
      rw [markLoop] at hx
      exact Or.inl hx
  | case2 id rest m hm ih =>
      intro x hx
      rw [markLoop, if_pos hm] at hx ⊢
      exact ih x hx
  | case3 id rest m hm ih =>
      intro x hx
      rw [markLoop, if_neg hm] at hx ⊢
      rcases ih x hx with hin | hcl
      · rcases Finset.mem_insert.mp hin with rfl | hin
        · refine Or.inr (fun c hc => ?_)
          exact mem_markLoop_of_mem_stack g _ _ _ (List.mem_append_left _ hc)
        · exact Or.inl hin
      · exact Or.inr hcl

lemma markLoop_sound (g : GcHeapM) :
    ∀ (stack : List Nat) (m : Finset Nat) (x : Nat), x ∈ markLoop g stack m →
      x ∈ m ∨ ∃ s ∈ stack, g.Reaches s x := by
  intro stack m
  induction stack, m using markLoop.induct g with
  | case1 m =>
      intro x hx
      rw [markLoop] at hx
      exact Or.inl hx
  | case2 id rest m hm ih =>
      intro x hx
      rw [markLoop, if_pos hm] at hx
      rcases ih x hx with h | ⟨s, hs, hr⟩
      · exact Or.inl h
      · exact Or.inr ⟨s, List.mem_cons_of_mem _ hs, hr⟩
  | case3 id rest m hm ih =>
      intro x hx
      rw [markLoop, if_neg hm] at hx
      rcases ih x hx with hin | ⟨s, hs, hr⟩
      · rcases Finset.mem_insert.mp hin with rfl | hin
        · exact Or.inr ⟨x, List.mem_cons_self x rest, Relation.ReflTransGen.refl⟩
        · exact Or.inl hin
      · rcases List.mem_append.mp hs with hs | hs
        · exact Or.inr ⟨id, List.mem_cons_self id rest,
            Relation.ReflTransGen.head hs hr⟩
        · exact Or.inr ⟨s, List.mem_cons_of_mem _ hs, hr⟩

lemma mem_markedSet_iff (g : GcHeapM) (x : Nat) :
    x ∈ markedSet g ↔ ∃ r ∈ g.rootedIds, g.Reaches r x := by
  constructor
  · intro h
    rcases markLoop_sound g _ _ x h with h0 | h1
    · cases h0
    · exact h1
  · rintro ⟨r, hr, hreach⟩
    induction hreach with
    | refl => exact mem_markLoop_of_mem_stack g _ _ _ hr
    | tail hab hbc ih =>
        rcases markLoop_closed g _ _ _ ih with h0 | h1
        · cases h0
        · exact h1 _ hbc

/-! ## Claim theorems -/

/-- C7: after a collection, a heap box is still allocated — with its
record unchanged, at its place in the list — if and only if it is
reachable through chains of contained handles from some box whose root
count is positive; and the boxes that were finalized and deallocated are
exactly the allocated boxes that are not so reachable. -/
theorem gc_survivors_iff_reachable (g : GcHeapM) (id : Nat) (b : GcBoxM) :
    ((id, b) ∈ (collectGarbage g).1.boxes ↔
      (id, b) ∈ g.boxes ∧ ∃ r ∈ g.rootedIds, g.Reaches r id)
    ∧ (id ∈ (collectGarbage g).2 ↔
      (∃ b2, (id, b2) ∈ g.boxes) ∧ ¬∃ r ∈ g.rootedIds, g.Reaches r id) := by
  constructor
  · simp only [collectGarbage, List.mem_filter, decide_eq_true_eq, mem_markedSet_iff]
  · simp only [collectGarbage, List.mem_map, List.mem_filter, decide_eq_true_eq,
      mem_markedSet_iff]
    constructor
    · rintro ⟨e, ⟨he, hnr⟩, rfl⟩
      exact ⟨⟨e.2, he⟩, by simpa using hnr⟩
    · rintro ⟨⟨b2, hb2⟩, hnr⟩
      exact ⟨(id, b2), ⟨hb2, by simpa using hnr⟩, rfl⟩

/-- C2: refuted on the code.  `capture_upvalue` returns the existing open
upvalue for a location via `std::mem::take`, which removes it from the
VM's open-upvalue list (leaving a freshly allocated default upvalue at
location 0 in its slot).  Three captures of the same stack slot 5 on an
initially empty list show: the first two callers share one upvalue
object (ids equal), but after the second call that object is no longer
in the list — the slot of the list holds a new upvalue whose location is
0 — and the third call therefore allocates a distinct upvalue for slot
5, so two open upvalue objects for slot 5 exist and the third closure
does not share mutation with the first two. -/
theorem capture_upvalue_mem_take_bug :
    (captureUpvalue vmNew 5).1 = (captureUpvalue (captureUpvalue vmNew 5).2 5).1
    ∧ (captureUpvalue vmNew 5).1 ∉ (captureUpvalue (captureUpvalue vmNew 5).2 5).2.openValues
    ∧ ((captureUpvalue (captureUpvalue vmNew 5).2 5).2.upvHeap.getD
        ((captureUpvalue (captureUpvalue vmNew 5).2 5).2.openValues.getD 0 0)
        default).location = 0
    ∧ (captureUpvalue (captureUpvalue (captureUpvalue vmNew 5).2 5).2 5).1
        ≠ (captureUpvalue vmNew 5).1
    ∧ ((captureUpvalue (captureUpvalue (captureUpvalue vmNew 5).2 5).2 5).2.upvHeap.getD
        (captureUpvalue (captureUpvalue (captureUpvalue vmNew 5).2 5).2 5).1
        default).location = 5
    ∧ ((captureUpvalue (captureUpvalue (captureUpvalue vmNew 5).2 5).2 5).2.upvHeap.getD
        (captureUpvalue vmNew 5).1 default).location = 5 := by
  refine ⟨rfl, by decide, rfl, by decide, rfl, rfl⟩

/-- The compiler state in the middle of `{ var a = a; }`: the block has
opened one scope and `var a` has been declared (`add_local`), and the
initializer is about to resolve the identifier use of `a` (source bytes
offset 10).  This is the state the claimed uninitialized-read check
would have to inspect. -/
def uninitLocalParser : ParserSt :=
  let p := ParserSt.newP "{ var a = a; }"
  let p := { p with compiler := { p.compiler with scopeDepth := 1 } }
  addLocal p { tType := .Identifier, start := 6, length := 1, line := 1 }

/-- C6: the first half of the claim holds — a local's depth is -1 from
`add_local` until `mark_initialized` stamps the enclosing scope depth —
but the second half is refuted: `resolve_local` resolves the identifier
use in the initializer to the uninitialized slot (depth still -1) and
returns `some 0` with no error of any kind recorded, so the compiler
emits `GetLocal 0` instead of reporting the claimed compile error. -/
theorem resolve_local_accepts_uninitialized :
    ((uninitLocalParser.compiler.locals.getD 0 default).depth = -1)
    ∧ resolveLocal uninitLocalParser.scanner.bytes uninitLocalParser.compiler
        { tType := .Identifier, start := 10, length := 1, line := 1 } = some 0
    ∧ uninitLocalParser.hadError = false
    ∧ uninitLocalParser.errors = []
    ∧ (((markInitialized uninitLocalParser).compiler.locals.getD 0 default).depth = 1) := by
  refine ⟨rfl, by decide, rfl, rfl, rfl⟩

/-- The lines the interpreter wrote to stdout from the run loop, when the
run finished normally or with a runtime error. -/
def interpOutput : InterpRes → Option (List String)
  | .ok vm => some vm.output
  | .rerr vm => some vm.output
  | _ => none

/-- The compiled prototype, when compilation succeeded. -/
def compiledFn : Except String ObjFunctionV → Option ObjFunctionV
  | .ok f => some f
  | .error _ => none

/-- C1: refuted on the code.  `Parser::or` emits an unconditional `Jump`
over the `Pop` and the right operand — there is no `JumpIfFalse` — so
the right operand of `or` is never evaluated, not even when the left
operand is falsey.  Compiling `print false or true;` yields exactly
`[False, Jump 2, Pop, True, Print, Nil, Return]`, and running it prints
the falsey left operand (`false`): the `True` of the right operand is
jumped over, where the claim requires the right operand to be evaluated
and the expression to yield `true`. -/
theorem or_never_evaluates_rhs :
    compiledFn (compileSrc 64 "print false or true;") =
      some { arity := 0
             chunk := { code := [.False, .Jump 2, .Pop, .True, .Print, .Nil, .Return]
                        constants := []
                        lines := [1, 1, 1, 1, 1, 1, 1] }
             name := mkKey "script"
             upvalues := [] }
    ∧ interpOutput (interpret 64 64 "print false or true;") =
        some ["Printing value of false"]
    ∧ some ["Printing value of false"] ≠ some ["Printing value of true"] := by
  refine ⟨by decide, by decide, by decide⟩

/-- C4, counterexample: running `print (1 + 2) * 3;` does not write the
text `9` — the `Print` arm of `Vm::run` formats numbers as
`Printing value of {n}`. -/
theorem print_arith_not_bare_nine :
    interpOutput (interpret 64 64 "print (1 + 2) * 3;") ≠ some ["9"] := by decide

/-- C4, amended: running `print (1 + 2) * 3;` evaluates the expression
to the number 9 and writes exactly the line `Printing value of 9` from
the run loop (in addition, the compiler dumps a disassembly of the chunk
to stdout before execution, which is not part of the run loop and not
modelled). -/
theorem print_arith_output :
    interpOutput (interpret 64 64 "print (1 + 2) * 3;") =
      some ["Printing value of 9"] := by decide

/-- A closure object used to exhibit two distinct heap allocations with
identical contents. -/
def cEx : EClosure := .mk (.mk 0 (.mk [] .nil []) (mkKey "f") []) .nil

/-- C5, counterexample: two closure values holding DISTINCT heap objects
(allocation identities 0 and 1) with identical contents.  The claim says
the `Eq` instruction compares them by handle identity and must find them
unequal; the code compares the dereferenced contents
(`impl PartialEq for Gc`: `**self == **other`), so `Eq` pushes `true`. -/
theorem eq_distinct_heap_objects_equal :
    eqInstruction [.eclosure 0 cEx, .eclosure 1 cEx] = [.ebool true]
    ∧ (0 : Nat) ≠ 1 := ⟨rfl, by decide⟩

/-- C5, amended: the `Eq` instruction pops two values and pushes the
derived structural equality: `Nil` equals only `Nil`; booleans and
numbers compare by value with `NaN != NaN`; strings compare by content;
and function, closure and native values also compare by the contents of
the pointed-to objects — the handle identity is ignored (for natives
only the name is compared); values of different kinds are unequal. -/
theorem eq_instruction_structural_content :
    (∀ (s : List EValue) (a b : EValue),
      eqInstruction (s ++ [a, b]) = s ++ [.ebool (evalueEq a b)])
    ∧ evalueEq .enil .enil = true
    ∧ (∀ a b, evalueEq (.ebool a) (.ebool b) = (a == b))
    ∧ evalueEq (.enumber .nan) (.enumber .nan) = false
    ∧ (∀ p q, evalueEq (.enumber (.num p)) (.enumber (.num q)) = (p == q))
    ∧ (∀ i j s t, evalueEq (.estring i s) (.estring j t) = (s == t))
    ∧ (∀ i j f g, evalueEq (.efunction i f) (.efunction j g) = efunctionEq f g)
    ∧ (∀ i j c d, evalueEq (.eclosure i c) (.eclosure j d) = eclosureEq c d)
    ∧ (∀ i j n m, evalueEq (.enative i n) (.enative j m) = (n.value == m.value))
    ∧ evalueEq .enil (.ebool false) = false := by
  refine ⟨?_, rfl, fun a b => rfl, rfl, fun p q => rfl, fun i j s t => rfl,
    fun i j f g => rfl, fun i j c d => rfl, fun i j n m => rfl, rfl⟩
  intro s a b
  show ((s ++ [a, b]).dropLast.dropLast ++
      [EValue.ebool (eoptEq (s ++ [a, b]).dropLast.getLast? (s ++ [a, b]).getLast?)]) =
    s ++ [.ebool (evalueEq a b)]
  rw [show s ++ [a, b] = (s ++ [a]) ++ [b] by simp]
  rw [List.getLast?_concat, List.dropLast_concat, List.getLast?_concat,
    List.dropLast_concat]
  rfl

/-- A clean parser state whose current chunk holds the given code, used
to exercise the jump-patching and loop-emission helpers. -/
def mkChunkParser (code : List OpCode) : ParserSt :=
  { scanner := { bytes := [], start := 0, current := 0, line := 1 }
    compiler := { locals := [], localCount := 0, scopeDepth := 0,
                  function := { arity := 0,
                                chunk := { code := code, constants := [], lines := [] },
                                name := mkKey "script", upvalues := [] },
                  functionType := .Script }
    current := { tType := .Nil, start := 0, length := 0, line := 0 }
    previous := { tType := .Nil, start := 0, length := 0, line := 0 }
    hadError := false, panicMode := false, errors := [], crashed := false,
    unsupported := false }

/-- C9, counterexample: a backward `Loop` jump with a required offset of
256 — far below 65535, so by the claim it must compile — is rejected by
`emit_loop`, whose bound is `0xff`, with the error message "Loop body
too large." rather than "Too much code to jump over.". -/
theorem loop_offset_256_rejected :
    (emitLoop (mkChunkParser (List.replicate 258 .Pop)) 1).hadError = true
    ∧ (emitLoop (mkChunkParser (List.replicate 258 .Pop)) 1).errors =
        ["Loop body too large."]
    ∧ (mkChunkParser (List.replicate 258 .Pop)).codeLen - 1 - 1 = 256
    ∧ (256 : Nat) ≤ 65535 := by
  set_option maxRecDepth 4000 in
  refine ⟨by decide, by decide, by decide, by decide⟩

/-- C9, amended: the forward-jump patchers (`patch_jump`,
`patch_if_false_jump`) accept offsets up to 65535 and report "Too much
code to jump over." beyond that, as claimed; but the backward `Loop`
offset is capped by `emit_loop` at 255, larger offsets being reported as
"Loop body too large." — with the `Loop` instruction still emitted — and
`emit_loop` panics outright on chunks longer than 65535 instructions. -/
theorem jump_and_loop_offset_limits (p : ParserSt) (offset loopStart : Nat)
    (hpanic : p.panicMode = false) :
    ((offset + 1 ≤ p.codeLen → p.codeLen - offset - 1 ≤ 65535 →
        (patchJump p offset).hadError = p.hadError ∧
        (patchJump p offset).errors = p.errors ∧
        (patchJump p offset).compiler.function.chunk.code.get? offset =
          some (.Jump (p.codeLen - offset - 1)) ∧
        (patchIfFalseJump p offset).hadError = p.hadError ∧
        (patchIfFalseJump p offset).errors = p.errors ∧
        (patchIfFalseJump p offset).compiler.function.chunk.code.get? offset =
          some (.JumpIfFalse (p.codeLen - offset - 1)))
     ∧ (offset + 1 ≤ p.codeLen → 65535 < p.codeLen - offset - 1 →
        (patchJump p offset).hadError = true ∧
        (patchJump p offset).errors = p.errors ++ ["Too much code to jump over."] ∧
        (patchIfFalseJump p offset).hadError = true ∧
        (patchIfFalseJump p offset).errors = p.errors ++ ["Too much code to jump over."]))
    ∧ (p.codeLen ≤ 65535 → loopStart + 1 ≤ p.codeLen →
        ((p.codeLen - loopStart - 1 ≤ 255 →
          (emitLoop p loopStart).hadError = p.hadError ∧
          (emitLoop p loopStart).errors = p.errors ∧
          (emitLoop p loopStart).compiler.function.chunk.code.getLast? =
            some (.Loop (p.codeLen - loopStart - 1)))
         ∧ (255 < p.codeLen - loopStart - 1 →
          (emitLoop p loopStart).hadError = true ∧
          (emitLoop p loopStart).errors = p.errors ++ ["Loop body too large."] ∧
          (emitLoop p loopStart).compiler.function.chunk.code.getLast? =
            some (.Loop (p.codeLen - loopStart - 1))))) := by
  have hproj : ∀ (q : ParserSt) (o : Nat) (c : OpCode),
      (setCodeAt q o c).hadError = q.hadError ∧ (setCodeAt q o c).errors = q.errors ∧
      (setCodeAt q o c).compiler.function.chunk.code =
        q.compiler.function.chunk.code.set o c := by
    intro q o c
    exact ⟨rfl, rfl, rfl⟩
  refine ⟨⟨?_, ?_⟩, ?_⟩
  · intro hlt hle
    have hnund : ¬ p.codeLen < offset + 1 := by omega
    have hoff : offset < p.compiler.function.chunk.code.length := by
      have := hlt
      simp only [ParserSt.codeLen] at this
      omega
    have hmod : (p.codeLen - offset - 1) % 65536 = p.codeLen - offset - 1 :=
      Nat.mod_eq_of_lt (by omega)
    have hif : ¬ p.codeLen - offset - 1 > 65535 := by omega
    constructor
    · simp [patchJump, hnund, hif, setCodeAt]
    constructor
    · simp [patchJump, hnund, hif, setCodeAt]
    constructor
    · simp [patchJump, hnund, hif, setCodeAt, hmod, List.get?_eq_getElem?,
        List.getElem?_set_self hoff]
    constructor
    · simp [patchIfFalseJump, hnund, hif, setCodeAt]
    constructor
    · simp [patchIfFalseJump, hnund, hif, setCodeAt]
    · simp [patchIfFalseJump, hnund, hif, setCodeAt, hmod, List.get?_eq_getElem?,
        List.getElem?_set_self hoff]
  · intro hlt hgt
    have hnund : ¬ p.codeLen < offset + 1 := by omega
    have hif : p.codeLen - offset - 1 > 65535 := by omega
    refine ⟨?_, ?_, ?_, ?_⟩
    · simp [patchJump, hnund, hif, setCodeAt, errorP, errorAt, hpanic]
    · simp [patchJump, hnund, hif, setCodeAt, errorP, errorAt, hpanic]
    · simp [patchIfFalseJump, hnund, hif, setCodeAt, errorP, errorAt, hpanic]
    · simp [patchIfFalseJump, hnund, hif, setCodeAt, errorP, errorAt, hpanic]
  · intro hlen hls
    have hn1 : ¬ p.codeLen > 65535 := by omega
    have hn2 : ¬ p.codeLen < loopStart + 1 := by omega
    constructor
    · intro hsm
      have hif : ¬ p.codeLen - loopStart - 1 > 255 := by omega
      refine ⟨?_, ?_, ?_⟩
      · simp [emitLoop, hn1, hn2, hif, emitByte, ChunkS.writeToChunk]
      · simp [emitLoop, hn1, hn2, hif, emitByte, ChunkS.writeToChunk]
      · simp [emitLoop, hn1, hn2, hif, emitByte, ChunkS.writeToChunk, List.getLast?_concat]
    · intro hbg
      have hif : p.codeLen - loopStart - 1 > 255 := by omega
      refine ⟨?_, ?_, ?_⟩
      · simp [emitLoop, hn1, hn2, hif, emitByte, ChunkS.writeToChunk, errorP, errorAt, hpanic]
      · simp [emitLoop, hn1, hn2, hif, emitByte, ChunkS.writeToChunk, errorP, errorAt, hpanic]
      · simp [emitLoop, hn1, hn2, hif, emitByte, ChunkS.writeToChunk, errorP, errorAt, hpanic,
          List.getLast?_concat]

lemma tableGet_insert_self (t : List (HashKeyS × ValueV)) (k : HashKeyS) (v : ValueV) :
    tableGet (tableInsert t k v) k = some v := by
  induction t with
  | nil => simp [tableInsert, tableGet]
  | cons e rest ih =>
      by_cases h : e.1 == k
      · simp [tableInsert, tableGet, h]
      · simp only [tableInsert, h, Bool.false_eq_true, if_false]
        simpa [tableGet, List.find?, h] using ih

lemma mapM_isSome {α β : Type} (g : α → Option β) :
    ∀ (l : List α), (∀ x ∈ l, (g x).isSome) → ∃ ys, l.mapM g = some ys := by
  intro l
  rw [← List.mapM'_eq_mapM]
  induction l with
  | nil => exact fun _ => ⟨[], rfl⟩
  | cons x xs ih =>
      intro h
      obtain ⟨y, hy⟩ := Option.isSome_iff_exists.mp (h x (List.mem_cons_self x xs))
      obtain ⟨ys, hys⟩ := ih (fun a ha => h a (List.mem_cons_of_mem _ ha))
      exact ⟨y :: ys, by simp [List.mapM', hy, hys]⟩

lemma runtimeError_spec (vm : VmS) (msg : String) (fs : List CallFrameV)
    (f : CallFrameV) (ln : Nat)
    (hfr : vm.frames = fs ++ [f])
    (hip : f.ip ≠ 0)
    (hline : f.closure.function.chunk.lines.get? (f.ip - 1) = some ln)
    (hbt : ∀ fr ∈ fs, (frameLine fr).isSome) :
    ∃ vm2, runtimeError vm msg = some vm2 ∧ vm2.table = vm.table ∧
      vm2.stack = [] ∧ vm2.frames = vm.frames := by
  have hfl : vm.frames.getLast? = some f := by rw [hfr]; exact List.getLast?_concat _
  have h0 : (f.ip == 0) = false := by simpa using hip
  have hfls : (frameLine f).isSome := by
    rw [List.get?_eq_getElem?] at hline
    simp [frameLine, h0, hline]
  have hall : ∀ fr ∈ vm.frames.reverse, (frameLine fr).isSome := by
    intro fr hmem
    rw [List.mem_reverse, hfr] at hmem
    rcases List.mem_append.mp hmem with h | h
    · exact hbt fr h
    · rcases List.mem_singleton.mp h with rfl
      exact hfls
  obtain ⟨bt, hbt2⟩ := mapM_isSome frameLine vm.frames.reverse hall
  refine ⟨{ vm with
      errOutput := vm.errOutput ++
        ["Runtime error: " ++ msg ++ " [line " ++ toString ln ++ "]"] ++ bt
      stack := [] }, ?_, rfl, rfl, rfl⟩
  rw [runtimeError, hfl]
  simp only [h0, Bool.false_eq_true, if_false]
  rw [hline, hbt2]

/-- C8: executing `SetGlobal(ix)` — with the constant at `ix` holding the
name string — raises a runtime error and leaves the globals table
unchanged when the key is absent; when the key is present it overwrites
the stored value with the current stack top and does not pop the stack.
(The side conditions say the fetched instruction is this `SetGlobal` and
the line table and frame list are well formed enough for the error
formatter, as holds for every state the VM construcs.) -/
theorem set_global_declared_only (vm : VmS) (fs : List CallFrameV) (f : CallFrameV)
    (ix : Nat) (s : String) (ln : Nat)
    (hfr : vm.frames = fs ++ [f])
    (hcode : f.closure.function.chunk.code.get? f.ip = some (.SetGlobal ix))
    (hconst : f.closure.function.chunk.constants.get? ix = some (.string s))
    (hline : f.closure.function.chunk.lines.get? f.ip = some ln)
    (hbt : ∀ fr ∈ fs, (frameLine fr).isSome) :
    (tableGet vm.table (mkKey s) = none →
      ∃ vm2, vmStep vm = .rerr vm2 ∧ vm2.table = vm.table)
    ∧ (∀ top v, vm.stack.getLast? = some top →
        tableGet vm.table (mkKey s) = some v →
        ∃ vm2, vmStep vm = .next vm2 ∧
          vm2.table = tableInsert vm.table (mkKey s) top ∧
          vm2.stack = vm.stack ∧
          tableGet vm2.table (mkKey s) = some top) := by
  have hfl : vm.frames.getLast? = some f := by rw [hfr]; exact List.getLast?_concat _
  constructor
  · intro habs
    have hfr2 : (setLastFrame vm { f with ip := f.ip + 1 }).frames =
        ((fs ++ [{ f with ip := f.ip + 1 }] : List CallFrameV)) := by
      simp [setLastFrame, hfr]
    obtain ⟨vm2, hre, htab, hstk, hfrm⟩ :=
      runtimeError_spec (setLastFrame vm { f with ip := f.ip + 1 })
        ("undefined variable \x27" ++ s ++ "\x27")
        fs { f with ip := f.ip + 1 } ln hfr2 (by simp) (by simpa using hline) hbt
    refine ⟨vm2, ?_, by simpa [setLastFrame] using htab⟩
    rw [vmStep, hfl]
    simp only [hcode]
    simp only [hconst]
    have htg : tableGet (setLastFrame vm { f with ip := f.ip + 1 }).table (mkKey s) =
        none := by simpa [setLastFrame] using habs
    simp only [setLastFrame] at htg hre ⊢
    rw [htg]
    simp only [Option.isSome_none, Bool.false_eq_true, if_false]
    rw [hre]
  · intro top v htop hsome
    have hne : vm.stack ≠ [] := by
      intro h
      rw [h] at htop
      cases htop
    have hlen : 0 < vm.stack.length := List.length_pos.mpr hne
    have hpeek0 : vmPeek vm 0 = some top := by
      unfold vmPeek
      rw [if_neg (by omega)]
      simpa [List.get?_eq_getElem?, ← List.getLast?_eq_getElem?] using htop
    have hpeek : vmPeek (setLastFrame vm { f with ip := f.ip + 1 }) 0 = some top := hpeek0
    refine ⟨{ setLastFrame vm { f with ip := f.ip + 1 } with
        table := tableInsert vm.table (mkKey s) top }, ?_, rfl, rfl, ?_⟩
    · rw [vmStep, hfl]
      simp only [hcode]
      simp only [hconst]
      have htg : tableGet (setLastFrame vm { f with ip := f.ip + 1 }).table (mkKey s) =
          some v := by simpa [setLastFrame] using hsome
      simp only [setLastFrame] at htg hpeek ⊢
      rw [htg]
      simp only [Option.isSome_some, if_true]
      rw [hpeek]
    · exact tableGet_insert_self _ _ _

def c8fn : ObjFunctionV :=
  { arity := 0,
    chunk := { code := [.SetGlobal 0], constants := [.string "x"], lines := [7] },
    name := mkKey "script", upvalues := [] }

def c8f : CallFrameV := { closure := { function := c8fn, objUpvalues := [] }, ip := 0, slots := 0 }

def c8vm : VmS :=
  { stack := [.number (.num 1)], table := [(mkKey "x", .nil)], frames := [c8f],
    openValues := [], funHeap := [], cloHeap := [], upvHeap := [], natHeap := [],
    output := [], errOutput := [] }

/-- Witness for C8: a VM about to execute `SetGlobal 0` with name
constant `x`, the global `x` declared with value nil and the stack top
the number 1. -/
theorem set_global_declared_only_witness :
    ∃ vm2, vmStep c8vm = .next vm2 ∧
      vm2.table = tableInsert c8vm.table (mkKey "x") (.number (.num 1)) ∧
      vm2.stack = c8vm.stack ∧
      tableGet vm2.table (mkKey "x") = some (.number (.num 1)) :=
  (set_global_declared_only c8vm [] c8f 0 "x" 7 rfl rfl rfl rfl (by simp)).2
    (.number (.num 1)) .nil rfl (by decide)

/-- Witness for C9: on a two-instruction chunk, patching the jump at
position 0 stores `Jump 1` without error, and a loop back to position 0
(offset 1) emits without error. -/
theorem jump_and_loop_offset_limits_witness :
    (patchJump (mkChunkParser [.Pop, .Pop]) 0).compiler.function.chunk.code.get? 0 =
      some (.Jump 1)
    ∧ (emitLoop (mkChunkParser [.Pop, .Pop]) 0).errors = [] := by
  have h := jump_and_loop_offset_limits (mkChunkParser [.Pop, .Pop]) 0 0 rfl
  constructor
  · have h2 := (h.1.1 (by decide) (by decide)).2.2.1
    simpa [mkChunkParser, ParserSt.codeLen] using h2
  · have h2 := ((h.2 (by decide) (by decide)).1 (by decide)).2.1
    simpa [mkChunkParser] using h2

instance : Inhabited ValueV := ⟨.deflt⟩

lemma getD_set_self {l : List ObjUpValueV} {i : Nat} {a d : ObjUpValueV}
    (h : i < l.length) : (l.set i a).getD i d = a := by
  rw [List.getD_eq_getElem?_getD, List.getElem?_set_self h]
  rfl

lemma getD_set_ne {l : List ObjUpValueV} {i j : Nat} {a d : ObjUpValueV}
    (h : i ≠ j) : (l.set i a).getD j d = l.getD j d := by
  rw [List.getD_eq_getElem?_getD, List.getElem?_set_ne h, ← List.getD_eq_getElem?_getD]

/-- Characterization of the `close_upvalues` loop: the open list keeps,
in order, exactly the upvalues whose location is below the threshold;
every removed upvalue's `closed` cell receives the stack value at its
location; nothing else in the upvalue heap changes. -/
lemma closeUpvaluesLoop_spec (stack : List ValueV) (index : Nat) :
    ∀ (opens : List Nat) (heap : List ObjUpValueV),
      (∀ id ∈ opens, id < heap.length) →
      (∀ id ∈ opens, index ≤ (heap.getD id default).location →
        (heap.getD id default).location < stack.length) →
      ∃ r, closeUpvaluesLoop stack index opens heap = some r ∧
        r.1 = opens.filter (fun id => decide ((heap.getD id default).location < index)) ∧
        r.2.length = heap.length ∧
        (∀ id ∈ opens, index ≤ (heap.getD id default).location →
          r.2.getD id default =
            ⟨(heap.getD id default).location,
              some (stack.getD (heap.getD id default).location default)⟩) ∧
        (∀ j : Nat, (j ∈ opens → (heap.getD j default).location < index) →
          r.2.getD j default = heap.getD j default) := by
  intro opens
  induction opens with
  | nil =>
      intro heap _ _
      exact ⟨([], heap), rfl, rfl, rfl, fun id h => absurd h (by simp), fun j _ => rfl⟩
  | cons id rest ih =>
      intro heap hlen hbnd
      by_cases hle : index ≤ (heap.getD id default).location
      · -- this upvalue is closed: removed from the list, cell written
        have hid : id < heap.length := hlen id (List.mem_cons_self _ _)
        have hloc : (heap.getD id default).location < stack.length :=
          hbnd id (List.mem_cons_self _ _) hle
        have hget : stack.get? (heap.getD id default).location =
            some (stack.getD (heap.getD id default).location default) := by
          rw [List.get?_eq_getElem?, List.getElem?_eq_getElem hloc,
            List.getD_eq_getElem stack default hloc]
        have hlocs : ∀ j,
            ((heap.set id ⟨(heap.getD id default).location,
                some (stack.getD (heap.getD id default).location default)⟩).getD
              j default).location = (heap.getD j default).location := by
          intro j
          by_cases hji : id = j
          · subst hji
            rw [getD_set_self hid]
          · rw [getD_set_ne hji]
        obtain ⟨r, hr, hr1, hr2, hr3, hr4⟩ := ih
          (heap.set id ⟨(heap.getD id default).location,
            some (stack.getD (heap.getD id default).location default)⟩)
          (by intro a ha
              rw [List.length_set]
              exact hlen a (List.mem_cons_of_mem _ ha))
          (by intro a ha hle2
              rw [hlocs] at hle2 ⊢
              exact hbnd a (List.mem_cons_of_mem _ ha) hle2)
        refine ⟨r, ?_, ?_, ?_, ?_, ?_⟩
        · rw [closeUpvaluesLoop]
          simp only [hle, if_true, hget]
          exact hr
        · rw [hr1, List.filter_cons]
          have hnlt : ¬ (heap.getD id default).location < index := by omega
          have hdec : decide ((heap.getD id default).location < index) = false :=
            decide_eq_false hnlt
          simp only [hdec, Bool.false_eq_true, if_false]
          exact List.filter_congr (fun x _ => by rw [hlocs x])
        · rw [hr2, List.length_set]
        · intro a ha hle2
          rcases List.mem_cons.mp ha with rfl | ha
          · by_cases har : a ∈ rest
            · have h3 := hr3 a har (by rw [hlocs]; exact hle2)
              rw [hlocs a] at h3
              exact h3
            · have h4 := hr4 a (fun hmem => absurd hmem har)
              rw [h4, getD_set_self hid]
          · have h3 := hr3 a ha (by rw [hlocs]; exact hle2)
            rw [hlocs a] at h3
            exact h3
        · intro j hj
          have hjne : id ≠ j := by
            rintro rfl
            exact absurd (hj (List.mem_cons_self _ _)) (by omega)
          have h4 := hr4 j (fun hmem => by
            rw [hlocs]
            exact hj (List.mem_cons_of_mem _ hmem))
          rw [h4, getD_set_ne hjne]
      · -- kept in the open list
        obtain ⟨r, hr, hr1, hr2, hr3, hr4⟩ := ih heap
          (fun a ha => hlen a (List.mem_cons_of_mem _ ha))
          (fun a ha h2 => hbnd a (List.mem_cons_of_mem _ ha) h2)
        refine ⟨(id :: r.1, r.2), ?_, ?_, hr2, ?_, ?_⟩
        · rw [closeUpvaluesLoop]
          simp only [hle, if_false]
          rw [hr]
          rfl
        · rw [List.filter_cons]
          have hlt : (heap.getD id default).location < index := by omega
          have hdec : decide ((heap.getD id default).location < index) = true :=
            decide_eq_true hlt
          simp only [hdec, if_true, hr1]
        · intro a ha hle2
          rcases List.mem_cons.mp ha with rfl | ha
          · exact absurd hle2 hle
          · exact hr3 a ha hle2
        · intro j hj
          by_cases hjr : j ∈ rest
          · exact hr4 j (fun _ => hj (List.mem_cons_of_mem _ hjr))
          · exact hr4 j (fun hmem => absurd hmem hjr)

/-- A closure of arity 1 for the call counterexample. -/
def c3clo : ObjClosureV :=
  { function :=
      { arity := 1,
        chunk := { code := [.Return], constants := [], lines := [1] },
        name := mkKey "f", upvalues := [] },
    objUpvalues := [] }

/-- A VM about to call `c3clo` with one argument: the callee sits under
the argument on the stack. -/
def c3vm : VmS :=
  { stack := [.closure 0, .number (.num 1)], table := [], frames := [],
    openValues := [], funHeap := [], cloHeap := [c3clo], upvHeap := [],
    natHeap := [], output := [], errOutput := [] }

/-- The frame popped by the Return counter-scenario: its function's code
is a single `Return`, its window base is stack slot 1. -/
def c3rf : CallFrameV :=
  { closure :=
      { function :=
          { arity := 0,
            chunk := { code := [.Return], constants := [], lines := [2] },
            name := mkKey "g", upvalues := [] },
        objUpvalues := [] },
    ip := 0, slots := 1 }

/-- A VM about to execute that `Return`: two frames, three stack values,
one open upvalue at location 1 (inside the returning frame's window). -/
def c3rvm : VmS :=
  { stack := [.number (.num 0), .number (.num 1), .number (.num 2)],
    table := [], frames := [{ c3rf with slots := 0 }, c3rf],
    openValues := [0], funHeap := [], cloHeap := [], upvHeap := [⟨1, none⟩],
    natHeap := [], output := [], errOutput := [] }

/-- C3: corrected.  A successful `Vm::call` gives the new frame
`slots = stack.len() - argc - 1` (one below the spec's `top - argc`: the
base is the slot of the callee itself), and `ip = 0`.  `Return` pops the
return value, pops the frame, closes every open upvalue whose location
is at or above the popped frame's `slots` (writing the stack value at
that location into its `closed` cell), and — only when frames remain —
truncates the stack to `slots` and pushes the return value; when the
popped frame was the last one the run ends without truncating or
pushing. -/
theorem call_and_return_stack_base :
    (∀ (vm : VmS) (clo : ObjClosureV) (argc : Nat),
      argc = clo.function.arity →
      vm.frames.length ≠ FRAME_MAX →
      argc + 1 ≤ vm.stack.length →
      vmCall vm clo argc = some (true,
        { vm with frames := vm.frames ++
            [{ closure := clo, ip := 0, slots := vm.stack.length - argc - 1 }] })) ∧
    (∀ (vm : VmS) (f : CallFrameV) (ret : ValueV),
      vm.frames.getLast? = some f →
      f.closure.function.chunk.code.get? f.ip = some .Return →
      vm.stack.getLast? = some ret →
      (∀ id ∈ vm.openValues, id < vm.upvHeap.length) →
      (∀ id ∈ vm.openValues, f.slots ≤ (vm.upvHeap.getD id default).location →
        (vm.upvHeap.getD id default).location < vm.stack.dropLast.length) →
      ∃ opens2 heap2,
        closeUpvaluesLoop vm.stack.dropLast f.slots vm.openValues vm.upvHeap =
          some (opens2, heap2) ∧
        opens2 = vm.openValues.filter
          (fun id => decide ((vm.upvHeap.getD id default).location < f.slots)) ∧
        (∀ id ∈ vm.openValues, f.slots ≤ (vm.upvHeap.getD id default).location →
          heap2.getD id default =
            ⟨(vm.upvHeap.getD id default).location,
              some (vm.stack.dropLast.getD
                (vm.upvHeap.getD id default).location default)⟩) ∧
        vmStep vm =
          (if vm.frames.dropLast.isEmpty then
            .done { vm with
                stack := vm.stack.dropLast,
                frames := vm.frames.dropLast,
                openValues := opens2, upvHeap := heap2 }
          else
            .next { vm with
                stack := vm.stack.dropLast.take f.slots ++ [ret],
                frames := vm.frames.dropLast,
                openValues := opens2, upvHeap := heap2 })) := by
  constructor
  · intro vm clo argc ha hf hs
    have h1 : ¬ ((argc != clo.function.arity) = true) := by simp [ha]
    have h2 : ¬ ((vm.frames.length == FRAME_MAX) = true) := by simpa using hf
    have h3 : ¬ (vm.stack.length < argc + 1) := by omega
    rw [vmCall, if_neg h1, if_neg h2, if_neg h3]
  · intro vm f ret hf hcode hret hids hlocs
    obtain ⟨stk, tbl, frs, opn, fh, ch, uh, nh, out, eout⟩ := vm
    simp only at hf hcode hret hids hlocs ⊢
    obtain ⟨⟨o2, h2⟩, hc, hfil, hlen, hclosed, huntouched⟩ :=
      closeUpvaluesLoop_spec stk.dropLast f.slots opn uh hids hlocs
    refine ⟨o2, h2, hc, hfil, hclosed, ?_⟩
    rw [vmStep]
    simp only [hf]
    simp only [hcode]
    rw [vmPop]
    simp only [setLastFrame]
    simp only [hret]
    rw [closeUpvalues]
    simp only [List.dropLast_concat]
    simp only [hc]
    rfl

/-- Counterexample to the claimed base: calling an arity-1 closure on a
stack of length 2 gives the new frame base 0, not top - argc = 1. -/
theorem call_stack_base_counterexample :
    (vmCall c3vm c3clo 1).map (fun r => r.2.frames.map CallFrameV.slots) = some [0] ∧
    c3vm.stack.length - 1 = 1 := ⟨rfl, rfl⟩

/-- Witness: the call characterization at `c3vm`, and the Return
characterization at `c3rvm` (whose open upvalue at location 1 is closed,
the stack truncated to slot 1, the returned 2 pushed). -/
theorem call_and_return_stack_base_witness :
    (vmCall c3vm c3clo 1 = some (true,
      { c3vm with frames := c3vm.frames ++
          [{ closure := c3clo, ip := 0, slots := c3vm.stack.length - 1 - 1 }] })) ∧
    (∃ r : List Nat × List ObjUpValueV,
      closeUpvaluesLoop c3rvm.stack.dropLast c3rf.slots c3rvm.openValues c3rvm.upvHeap =
        some r ∧
      vmStep c3rvm = .next { c3rvm with
          stack := c3rvm.stack.dropLast.take c3rf.slots ++ [.number (.num 2)],
          frames := c3rvm.frames.dropLast,
          openValues := r.1, upvHeap := r.2 }) := by
  refine ⟨call_and_return_stack_base.1 c3vm c3clo 1 rfl (by decide) (by decide), ?_⟩
  obtain ⟨o2, h2, hc, hfil, hclosed, hstep⟩ :=
    call_and_return_stack_base.2 c3rvm c3rf (.number (.num 2)) rfl rfl rfl
      (by decide) (by decide)
  refine ⟨(o2, h2), hc, ?_⟩
  rw [hstep, if_neg (by decide)]

/-! ## hadError is never cleared

No parser action writes `false` into `had_error`: only `error_at` touches
it, and it only sets it.  The lemmas below record this for every helper,
then for the whole mutually recursive parser. -/

lemma errorAt_hadError_mono (p : ParserSt) (t : Token) (m : String)
    (h : p.hadError = true) : (errorAt p t m).hadError = true := by
  unfold errorAt; split
  · exact h
  · rfl

lemma errorAtCurrent_hadError_mono (p : ParserSt) (m : String)
    (h : p.hadError = true) : (errorAtCurrent p m).hadError = true :=
  errorAt_hadError_mono p p.current m h

lemma errorP_hadError_mono (p : ParserSt) (m : String)
    (h : p.hadError = true) : (errorP p m).hadError = true :=
  errorAt_hadError_mono p p.previous m h

lemma nextValidTokenLoop_hadError_mono : ∀ (fuel : Nat) (p : ParserSt),
    p.hadError = true → (nextValidTokenLoop fuel p).hadError = true := by
  intro fuel
  induction fuel with
  | zero => intro p h; exact h
  | succ n ih =>
      intro p h
      rcases hsc : scanToken p.scanner with ⟨tok, sc⟩
      simp only [nextValidTokenLoop, hsc]
      split
      · exact ih _ (errorAtCurrent_hadError_mono _ _ h)
      · exact h

lemma nextValidToken_hadError_mono (p : ParserSt) (h : p.hadError = true) :
    (nextValidToken p).hadError = true :=
  nextValidTokenLoop_hadError_mono _ _ h

lemma matchToken_snd_hadError_mono (p : ParserSt) (t : TokenType)
    (h : p.hadError = true) : ((matchToken p t).2).hadError = true := by
  unfold matchToken; split
  · exact nextValidToken_hadError_mono _ h
  · exact h

lemma consume_hadError_mono (p : ParserSt) (t : TokenType) (m : String)
    (h : p.hadError = true) : (consume p t m).hadError = true := by
  unfold consume; split
  · exact nextValidToken_hadError_mono _ h
  · exact errorAtCurrent_hadError_mono _ _ h

lemma emitConstant_hadError (p : ParserSt) (v : ValueV) :
    (emitConstant p v).hadError = p.hadError := rfl

lemma identifierConstant_fst_hadError (p : ParserSt) :
    ((identifierConstant p).1).hadError = p.hadError := rfl

lemma patchJump_hadError_mono (p : ParserSt) (o : Nat)
    (h : p.hadError = true) : (patchJump p o).hadError = true := by
  simp only [patchJump]
  split
  · exact h
  · split
    · exact errorP_hadError_mono _ _ h
    · exact h

lemma patchIfFalseJump_hadError_mono (p : ParserSt) (o : Nat)
    (h : p.hadError = true) : (patchIfFalseJump p o).hadError = true := by
  simp only [patchIfFalseJump]
  split
  · exact h
  · split
    · exact errorP_hadError_mono _ _ h
    · exact h

lemma markInitialized_hadError (p : ParserSt) :
    (markInitialized p).hadError = p.hadError := by
  simp only [markInitialized]
  split
  · rfl
  · split
    · rfl
    · rfl

lemma addLocal_hadError_mono (p : ParserSt) (t : Token)
    (h : p.hadError = true) : (addLocal p t).hadError = true := by
  unfold addLocal; split
  · exact errorP_hadError_mono _ _ h
  · exact h

lemma declareVariableLoop_hadError_mono (name : String) : ∀ (i : Nat) (p : ParserSt),
    p.hadError = true → (declareVariableLoop name i p).hadError = true := by
  intro i
  induction i with
  | zero => intro p h; exact h
  | succ n ih =>
      intro p h
      simp only [declareVariableLoop]
      split
      · exact h
      · split
        · exact ih _ (errorP_hadError_mono _ _ h)
        · exact ih _ h

lemma declareVariable_hadError_mono (p : ParserSt)
    (h : p.hadError = true) : (declareVariable p).hadError = true := by
  simp only [declareVariable]
  split
  · exact h
  · exact addLocal_hadError_mono _ _ (declareVariableLoop_hadError_mono _ _ _ h)

lemma defineVariable_hadError (p : ParserSt) (g : Nat) :
    (defineVariable p g).hadError = p.hadError := by
  unfold defineVariable; split
  · exact markInitialized_hadError p
  · rfl

lemma endScopeLoop_hadError : ∀ (fuel : Nat) (p : ParserSt),
    (endScopeLoop fuel p).hadError = p.hadError := by
  intro fuel
  induction fuel with
  | zero => intro p; rfl
  | succ n ih =>
      intro p
      simp only [endScopeLoop]
      split
      · split
        · exact ih _
        · exact ih _
      · rfl

lemma endScope_hadError (p : ParserSt) : (endScope p).hadError = p.hadError :=
  endScopeLoop_hadError _ _

lemma synchronizeLoop_hadError_mono : ∀ (fuel : Nat) (p : ParserSt),
    p.hadError = true → (synchronizeLoop fuel p).hadError = true := by
  intro fuel
  induction fuel with
  | zero => intro p h; exact h
  | succ n ih =>
      intro p h
      simp only [synchronizeLoop]
      split
      · split
        · exact h
        · split <;> first
            | exact h
            | exact ih _ (nextValidToken_hadError_mono _ h)
      · exact h

lemma synchronize_hadError_mono (p : ParserSt)
    (h : p.hadError = true) : (synchronize p).hadError = true :=
  synchronizeLoop_hadError_mono _ _ h

lemma numberAct_hadError (p : ParserSt) : (numberAct p).hadError = p.hadError := by
  simp only [numberAct]; split
  · exact emitConstant_hadError _ _
  · rfl

lemma literalAct_hadError (p : ParserSt) : (literalAct p).hadError = p.hadError := by
  unfold literalAct; split <;> rfl

lemma stringAct_hadError (p : ParserSt) : (stringAct p).hadError = p.hadError :=
  emitConstant_hadError _ _

/-- hadError monotonicity for the whole mutually recursive parser, by
induction on the fuel: one conjunct per function of the mutual block. -/
lemma parserHadErrorMonoAll : ∀ fuel : Nat,
    (∀ prec p, p.hadError = true → (parsePrecedence fuel prec p).hadError = true) ∧
    (∀ prec c p, p.hadError = true → (infixLoop fuel prec c p).hadError = true) ∧
    (∀ r c p, p.hadError = true → (runPre fuel r c p).hadError = true) ∧
    (∀ r c p, p.hadError = true → (runInf fuel r c p).hadError = true) ∧
    (∀ p, p.hadError = true → (expression fuel p).hadError = true) ∧
    (∀ p, p.hadError = true → (groupingAct fuel p).hadError = true) ∧
    (∀ p, p.hadError = true → (unaryAct fuel p).hadError = true) ∧
    (∀ p, p.hadError = true → (binaryAct fuel p).hadError = true) ∧
    (∀ p, p.hadError = true → (andAct fuel p).hadError = true) ∧
    (∀ p, p.hadError = true → (orAct fuel p).hadError = true) ∧
    (∀ m p, p.hadError = true → ((argumentListLoop fuel m p).2).hadError = true) ∧
    (∀ p, p.hadError = true → ((argumentList fuel p).2).hadError = true) ∧
    (∀ p, p.hadError = true → (callAct fuel p).hadError = true) ∧
    (∀ p, p.hadError = true → (printAct fuel p).hadError = true) ∧
    (∀ t c p, p.hadError = true → (compileNamedVariable fuel t c p).hadError = true) ∧
    (∀ m p, p.hadError = true → ((variableDecl fuel m p).1).hadError = true) ∧
    (∀ p, p.hadError = true → (varStatement fuel p).hadError = true) ∧
    (∀ p, p.hadError = true → (returnStatement fuel p).hadError = true) ∧
    (∀ p, p.hadError = true → (blockLoop fuel p).hadError = true) ∧
    (∀ p, p.hadError = true → (block fuel p).hadError = true) ∧
    (∀ p, p.hadError = true → (statement fuel p).hadError = true) ∧
    (∀ p, p.hadError = true → (expressionStatement fuel p).hadError = true) ∧
    (∀ p, p.hadError = true → (declaration fuel p).hadError = true) ∧
    (∀ p, p.hadError = true → (compileTopLoop fuel p).hadError = true) := by
  intro fuel
  induction fuel with
  | zero =>
      exact ⟨fun _ p h => h, fun _ _ p h => h, fun _ _ p h => h, fun _ _ p h => h,
        fun p h => h, fun p h => h, fun p h => h, fun p h => h, fun p h => h,
        fun p h => h, fun _ p h => h, fun p h => h, fun p h => h, fun p h => h,
        fun _ _ p h => h, fun _ p h => h, fun p h => h, fun p h => h, fun p h => h,
        fun p h => h, fun p h => h, fun p h => h, fun p h => h, fun p h => h⟩
  | succ n ih =>
      obtain ⟨hPP, hIL, hRP, hRI, hEx, hGr, hUn, hBi, hAnd, hOr, hALL, hAL, hCall,
        hPrint, hCNV, hVD, hVarS, hRet, hBL, hBlk, hStmt, hES, hDecl, hTop⟩ := ih
      refine ⟨?_, ?_, ?_, ?_, ?_, ?_, ?_, ?_, ?_, ?_, ?_, ?_, ?_, ?_, ?_, ?_, ?_,
        ?_, ?_, ?_, ?_, ?_, ?_, ?_⟩
      · -- parsePrecedence
        intro prec p h
        simp only [parsePrecedence]
        have h1 := nextValidToken_hadError_mono p h
        split
        · exact errorP_hadError_mono _ _ h1
        · rename_i rule hrule
          have hbig := hIL prec (Prec.ble prec Prec.Assignment)
            (runPre n rule (Prec.ble prec Prec.Assignment) (nextValidToken p))
            (hRP rule (Prec.ble prec Prec.Assignment) (nextValidToken p) h1)
          split
          · split
            · rename_i p2 heq
              have h4 := matchToken_snd_hadError_mono _ .Equal hbig
              rw [heq] at h4
              exact errorP_hadError_mono _ _ h4
            · rename_i p2 heq
              have h4 := matchToken_snd_hadError_mono _ .Equal hbig
              rw [heq] at h4
              exact h4
          · exact hbig
      · -- infixLoop
        intro prec c p h
        simp only [infixLoop]
        split
        · split
          · exact hIL _ _ _ (hRI _ _ _ (nextValidToken_hadError_mono _ h))
          · exact hIL _ _ _ (nextValidToken_hadError_mono _ h)
        · exact h
      · -- runPre
        intro r c p h
        cases r <;> simp only [runPre] <;>
          first
          | exact hGr _ h
          | exact hUn _ h
          | exact (numberAct_hadError _).trans h
          | exact (literalAct_hadError _).trans h
          | exact (stringAct_hadError _).trans h
          | exact hPrint _ h
          | exact hCNV _ _ _ h
      · -- runInf
        intro r c p h
        cases r <;> simp only [runInf] <;>
          first
          | exact hBi _ h
          | exact hCall _ h
          | exact hAnd _ h
          | exact hOr _ h
      · -- expression
        intro p h
        simp only [expression]
        exact hPP _ _ h
      · -- groupingAct
        intro p h
        simp only [groupingAct]
        exact consume_hadError_mono _ _ _ (hEx _ h)
      · -- unaryAct
        intro p h
        simp only [unaryAct]
        split <;> exact hPP _ _ h
      · -- binaryAct
        intro p h
        simp only [binaryAct]
        split <;> exact hPP _ _ h
      · -- andAct
        intro p h
        simp only [andAct]
        exact patchIfFalseJump_hadError_mono _ _ (hPP _ _ h)
      · -- orAct
        intro p h
        simp only [orAct]
        exact patchJump_hadError_mono _ _ (hPP _ _ h)
      · -- argumentListLoop
        intro m p h
        simp only [argumentListLoop]
        have h1 : ((if m == 255 then errorP (expression n p)
            "Cannot have more than 255 arguments." else expression n p)).hadError = true := by
          split
          · exact errorP_hadError_mono _ _ (hEx _ h)
          · exact hEx _ h
        split
        · rename_i p2 heq
          have h2 := matchToken_snd_hadError_mono _ .Comma h1
          rw [heq] at h2
          exact hALL _ _ h2
        · rename_i p2 heq
          have h2 := matchToken_snd_hadError_mono _ .Comma h1
          rw [heq] at h2
          exact h2
      · -- argumentList
        intro p h
        simp only [argumentList]
        have h1 : ((if !(p.check .RightParen) then argumentListLoop n 0 p
            else ((0 : Nat), p)).2).hadError = true := by
          split
          · exact hALL _ _ h
          · exact h
        exact consume_hadError_mono _ _ _ h1
      · -- callAct
        intro p h
        simp only [callAct]
        exact hAL _ h
      · -- printAct
        intro p h
        simp only [printAct]
        exact consume_hadError_mono _ _ _ (hEx _ h)
      · -- compileNamedVariable
        intro t c p h
        simp only [compileNamedVariable]
        split
        · split
          · rename_i p2 heq
            have h2 := matchToken_snd_hadError_mono p .Equal h
            rw [heq] at h2
            split
            · exact hEx _ h2
            · exact h2
          · rename_i p2 heq
            have h2 := matchToken_snd_hadError_mono p .Equal h
            rw [heq] at h2
            exact h2
        · split
          · split
            · rename_i p2 heq
              have h2 := matchToken_snd_hadError_mono p .Equal h
              rw [heq] at h2
              split
              · exact hEx _ h2
              · exact h2
            · rename_i p2 heq
              have h2 := matchToken_snd_hadError_mono p .Equal h
              rw [heq] at h2
              exact h2
          · split
            · rename_i q heq
              have h2 := matchToken_snd_hadError_mono (identifierConstant p).1 .Equal h
              rw [heq] at h2
              split
              · exact hEx _ h2
              · exact h2
            · rename_i q heq
              have h2 := matchToken_snd_hadError_mono (identifierConstant p).1 .Equal h
              rw [heq] at h2
              exact h2
      · -- variableDecl
        intro m p h
        simp only [variableDecl]
        have h1 := declareVariable_hadError_mono (consume p .Identifier m)
          (consume_hadError_mono p .Identifier m h)
        split
        · exact h1
        · exact h1
      · -- varStatement
        intro p h
        simp only [varStatement]
        have h1 : ((variableDecl n "Expect variable name." p).1).hadError = true :=
          hVD _ _ h
        rw [defineVariable_hadError]
        apply consume_hadError_mono
        split
        · rename_i q heq
          have h2 := matchToken_snd_hadError_mono _ .Equal h1
          rw [heq] at h2
          exact hEx _ h2
        · rename_i q heq
          have h2 := matchToken_snd_hadError_mono _ .Equal h1
          rw [heq] at h2
          exact h2
      · -- returnStatement
        intro p h
        simp only [returnStatement]
        have h1 : ((if p.compiler.functionType == .Script then
            errorAtCurrent p "Cannot return a value from an initializer."
            else p)).hadError = true := by
          split
          · exact errorAtCurrent_hadError_mono _ _ h
          · exact h
        split
        · rename_i q heq
          have h2 := matchToken_snd_hadError_mono _ .Semicolon h1
          rw [heq] at h2
          exact h2
        · rename_i q heq
          have h2 := matchToken_snd_hadError_mono _ .Semicolon h1
          rw [heq] at h2
          exact consume_hadError_mono _ _ _ (hEx _ h2)
      · -- blockLoop
        intro p h
        simp only [blockLoop]
        split
        · exact hBL _ (hDecl _ h)
        · exact h
      · -- block
        intro p h
        simp only [block]
        exact consume_hadError_mono _ _ _ (hBL _ h)
      · -- statement
        intro p h
        simp only [statement]
        split
        · rename_i p1 heq
          have h1 := matchToken_snd_hadError_mono p .Print h
          rw [heq] at h1
          exact hPrint _ h1
        · rename_i p1 heq
          have h1 := matchToken_snd_hadError_mono p .Print h
          rw [heq] at h1
          split
          · rename_i p2 heq2
            have h2 := matchToken_snd_hadError_mono p1 .LeftBrace h1
            rw [heq2] at h2
            exact (endScope_hadError _).trans (hBlk _ h2)
          · rename_i p2 heq2
            have h2 := matchToken_snd_hadError_mono p1 .LeftBrace h1
            rw [heq2] at h2
            exact hES _ h2
      · -- expressionStatement
        intro p h
        simp only [expressionStatement]
        exact consume_hadError_mono _ _ _ (hEx _ h)
      · -- declaration
        intro p h
        simp only [declaration]
        have hsync : ∀ q : ParserSt, q.hadError = true →
            (if q.panicMode then synchronize q else q).hadError = true := by
          intro q hq
          split
          · exact synchronize_hadError_mono _ hq
          · exact hq
        apply hsync
        split
        · rename_i p1 heq1
          have h1 := matchToken_snd_hadError_mono p .Var h
          rw [heq1] at h1
          exact hVarS _ h1
        · rename_i p1 heq1
          have h1 := matchToken_snd_hadError_mono p .Var h
          rw [heq1] at h1
          split
          · rename_i p2 heq2
            have h2 := matchToken_snd_hadError_mono p1 .If h1
            rw [heq2] at h2
            exact h2
          · rename_i p2 heq2
            have h2 := matchToken_snd_hadError_mono p1 .If h1
            rw [heq2] at h2
            split
            · rename_i p3 heq3
              have h3 := matchToken_snd_hadError_mono p2 .While h2
              rw [heq3] at h3
              exact h3
            · rename_i p3 heq3
              have h3 := matchToken_snd_hadError_mono p2 .While h2
              rw [heq3] at h3
              split
              · rename_i p4 heq4
                have h4 := matchToken_snd_hadError_mono p3 .For h3
                rw [heq4] at h4
                exact h4
              · rename_i p4 heq4
                have h4 := matchToken_snd_hadError_mono p3 .For h3
                rw [heq4] at h4
                split
                · rename_i p5 heq5
                  have h5 := matchToken_snd_hadError_mono p4 .Fun h4
                  rw [heq5] at h5
                  exact h5
                · rename_i p5 heq5
                  have h5 := matchToken_snd_hadError_mono p4 .Fun h4
                  rw [heq5] at h5
                  split
                  · rename_i p6 heq6
                    have h6 := matchToken_snd_hadError_mono p5 .Return h5
                    rw [heq6] at h6
                    exact hRet _ h6
                  · rename_i p6 heq6
                    have h6 := matchToken_snd_hadError_mono p5 .Return h5
                    rw [heq6] at h6
                    exact hStmt _ h6
      · -- compileTopLoop
        intro p h
        simp only [compileTopLoop]
        split
        · exact hTop _ (hDecl _ h)
        · exact h

/-- C10: a return statement at the top level of a script is always
reported as a compile error.  With the Script function type,
`return_statement` immediately reports "Cannot return a value from an
initializer." (whenever reports are not being suppressed by panic mode —
and if they are, the parser has already recorded an error), and the
error flag survives the rest of the statement, whatever the remaining
input; concretely, the whole pipeline rejects the program `return 1;`. -/
theorem return_at_top_level_is_compile_error :
    (∀ (fuel : Nat) (p : ParserSt),
      p.compiler.functionType = .Script →
      p.panicMode = false ∨ p.hadError = true →
      (returnStatement (fuel + 1) p).hadError = true) ∧
    interpret 64 32 "return 1;" = .compileErr := by
  constructor
  · intro fuel p hft hpm
    have h1 : (errorAtCurrent p
        "Cannot return a value from an initializer.").hadError = true := by
      rcases hpm with hpm | he
      · simp [errorAtCurrent, errorAt, hpm]
      · exact errorAtCurrent_hadError_mono _ _ he
    simp only [returnStatement]
    have hgate : ((if p.compiler.functionType == .Script then
        errorAtCurrent p "Cannot return a value from an initializer."
        else p)).hadError = true := by
      rw [if_pos (by simp [hft])]
      exact h1
    have hEx := (parserHadErrorMonoAll fuel).2.2.2.2.1
    split
    · rename_i q heq
      have h2 := matchToken_snd_hadError_mono _ .Semicolon hgate
      rw [heq] at h2
      exact h2
    · rename_i q heq
      have h2 := matchToken_snd_hadError_mono _ .Semicolon hgate
      rw [heq] at h2
      exact consume_hadError_mono _ _ _ (hEx _ h2)
  · rfl

/-- Witness: the fresh parser for `return 1;` is a Script compiler with
panic mode off, and `return_statement` flags the error there. -/
theorem return_at_top_level_is_compile_error_witness :
    (ParserSt.newP "return 1;").compiler.functionType = .Script ∧
    (ParserSt.newP "return 1;").panicMode = false ∧
    (returnStatement 10 (ParserSt.newP "return 1;")).hadError = true :=
  ⟨rfl, rfl, return_at_top_level_is_compile_error.1 9 (ParserSt.newP "return 1;")
    rfl (Or.inl rfl)⟩
